import Mathlib

/-!
Verification development for the log-normalization and windowed
feature-aggregation engine of the repository
(`anomaly-detection-agent/scripts/convert_logs.py`,
`anomaly-detection-agent/scripts/build_features.py`,
`anomaly-ml/scripts/convert_all.py`,
`anomaly-ml/scripts/build_features.py`).

The Python code is shallowly embedded: Python JSON values become the
inductive type `J`; Python floats and ints both become `ℚ` (they are never
distinguished by any behaviour the claims touch except `str()` rendering,
which no claim depends on); fallible code returns `Except PyErr`.
-/

/-- Model of a Python/JSON value as it flows through the pipelines.
Python `int` and `float` are merged into `num : ℚ`; `None` is `null`. -/
inductive J where
  | null
  | bool (b : Bool)
  | num (q : ℚ)
  | str (s : String)
  | arr (elems : List J)
  | obj (fields : List (String × J))

/-- Model of the Python exceptions that can escape the embedded code. -/
inductive PyErr where
  | attributeError
deriving DecidableEq

/-- Python truthiness: `None`, `False`, `0`, `""`, `[]`, and an empty dict
are falsy; everything else is truthy. -/
def pyTruthy : J → Bool
  | J.null => false
  | J.bool b => b
  | J.num q => q != 0
  | J.str s => s != ""
  | J.arr l => !l.isEmpty
  | J.obj l => !l.isEmpty

/-- Python `a or b`: `a` when truthy, otherwise `b`. -/
def pyOr (a b : J) : J := if pyTruthy a then a else b

/-- Model of `dict.get(k)` on a Python dict built with distinct literal
keys: the value at the first matching key, `None` when absent. -/
def alGet (d : List (String × J)) (k : String) : J :=
  match d.find? (fun kv => kv.1 == k) with
  | some kv => kv.2
  | none => J.null

/-- Key list of an embedded dict (insertion order, as in Python 3). -/
def alKeys (d : List (String × J)) : List String := d.map Prod.fst

/-- ASCII upper-casing of one character, as Python `str.upper()` does on
ASCII input (non-ASCII case folding is not exercised by the repository). -/
def upChar (c : Char) : Char :=
  if 97 ≤ c.toNat ∧ c.toNat ≤ 122 then Char.ofNat (c.toNat - 32) else c

/-- Model of Python `str.upper()`. -/
def pyUpper (s : String) : String := String.mk (s.data.map upChar)

/-- Characters stripped by Python `str.strip()`:
space, tab, newline, carriage return, vertical tab, form feed. -/
def isPySpace (c : Char) : Bool :=
  c == ' ' || c == '\t' || c == '\n' || c == '\r' ||
    c == Char.ofNat 11 || c == Char.ofNat 12

/-- Strip on a character list: drop leading and trailing whitespace. -/
def stripChars (l : List Char) : List Char :=
  ((l.dropWhile isPySpace).reverse.dropWhile isPySpace).reverse

/-- Model of Python `str.strip()`. -/
def pyStrip (s : String) : String := String.mk (stripChars s.data)

section Aggregation

/-- Projection of a canonical log record to the fields consumed by the
bucket aggregator (`build_features.py` reads `level`, `event`,
`status_code`, `duration_ms` of each record of one bucket; `service` and
`timestamp` only choose the bucket and are fixed inside one bucket). Field
types follow the canonical schema: `level`/`event` strings, `status_code`
an integer, `duration_ms` a float, each nullable. -/
structure LogRec where
  level : Option String
  event : Option String
  status_code : Option ℤ
  duration_ms : Option ℚ
deriving DecidableEq

/-- Running accumulator of one `(service, bucket)` group, mirroring the
`groups` defaultdict entry of
`anomaly-detection-agent/scripts/build_features.py`. -/
structure FAcc where
  total_logs : ℕ
  events : Finset String
  error_level_count : ℕ
  http_received : ℕ
  http_completed : ℕ
  status_present : ℕ
  duration_present : ℕ
  http_4xx : ℕ
  http_5xx : ℕ
  durations : List ℚ
  weak_label_anomaly : Bool
deriving DecidableEq

/-- Fresh accumulator (the defaultdict initializer, lines 46-62). -/
def initFAcc : FAcc :=
  ⟨0, ∅, 0, 0, 0, 0, 0, 0, 0, [], false⟩

/-- Predicate of the `error_level_count` increment:
`(obj.get("level") or "").upper() == "ERROR"`. -/
def isErrorLevel (r : LogRec) : Bool := pyUpper (r.level.getD "") == "ERROR"

/-- Predicate of the `http_received` increment. -/
def isHttpReceived (r : LogRec) : Bool := r.event.getD "" == "http.request.received"

/-- Predicate of the `http_completed` increment. -/
def isHttpCompleted (r : LogRec) : Bool := r.event.getD "" == "http.request.completed"

/-- Predicate of the `http_4xx` increment: status present and in 400-499. -/
def is4xx (r : LogRec) : Bool :=
  match r.status_code with
  | some s => decide (400 ≤ s ∧ s ≤ 499)
  | none => false

/-- Predicate of the `http_5xx` increment: status present and in 500-599. -/
def is5xx (r : LogRec) : Bool :=
  match r.status_code with
  | some s => decide (500 ≤ s ∧ s ≤ 599)
  | none => false

/-- Truthy event of a record, as added to the `events` set (`if ev:`). -/
def evOf (r : LogRec) : Option String :=
  match r.event with
  | some e => if e = "" then none else some e
  | none => none

/-- Record's duration qualifies for the weak-label rule
(`float(duration) >= 10000`). -/
def isLongDuration (r : LogRec) : Bool :=
  match r.duration_ms with
  | some d => decide (10000 ≤ d)
  | none => false

/-- One iteration of the aggregation loop of
`anomaly-detection-agent/scripts/build_features.py` (lines 84-132):
increment the counters, append the duration, then run the two weak-label
checks on the updated state. -/
def updFAcc (g : FAcc) (r : LogRec) : FAcc :=
  let g1 : FAcc :=
    { g with
      total_logs := g.total_logs + 1
      events := match evOf r with
        | some e => insert e g.events
        | none => g.events
      error_level_count := g.error_level_count + (if isErrorLevel r then 1 else 0)
      http_received := g.http_received + (if isHttpReceived r then 1 else 0)
      http_completed := g.http_completed + (if isHttpCompleted r then 1 else 0)
      status_present := g.status_present + (if r.status_code.isSome then 1 else 0)
      http_4xx := g.http_4xx + (if is4xx r then 1 else 0)
      http_5xx := g.http_5xx + (if is5xx r then 1 else 0)
      duration_present := g.duration_present + (if r.duration_ms.isSome then 1 else 0)
      durations := g.durations ++ (match r.duration_ms with
        | some d => [d]
        | none => []) }
  let w1 : Bool :=
    g1.weak_label_anomaly || (decide (0 < g1.http_5xx) || decide (0 < g1.error_level_count))
  let w2 : Bool := w1 || isLongDuration r
  { g1 with weak_label_anomaly := w2 }

/-- Fold of one bucket's record list into its accumulator. -/
def foldFAcc (l : List LogRec) : FAcc := l.foldl updFAcc initFAcc

/-- Python `int()` truncation toward zero of a rational. -/
def pyTrunc (q : ℚ) : ℤ := if 0 ≤ q then ⌊q⌋ else ⌈q⌉

/-- Python `sorted` on a list of numbers. -/
def sortQ (l : List ℚ) : List ℚ := l.insertionSort (· ≤ ·)

/-- The `percentile` function of
`anomaly-detection-agent/scripts/build_features.py` (lines 31-42).
Negative indices cannot arise for the percentile 0.95 used by the
program, so list indexing is modelled with a natural-number index. -/
def percentile (values : List ℚ) (p : ℚ) : ℚ :=
  if values = [] then 0
  else
    let s := sortQ values
    let k : ℚ := ((values.length : ℚ) - 1) * p
    let f : ℤ := ⌊k⌋
    let c : ℤ := ⌈k⌉
    if f = c then s.getD (pyTrunc k).toNat 0
    else
      let d0 := s.getD f.toNat 0 * ((c : ℚ) - k)
      let d1 := s.getD c.toNat 0 * (k - (f : ℚ))
      d0 + d1

/-- Python `max` of a nonempty list (callers guard the empty case). -/
def listMax : List ℚ → ℚ
  | [] => 0
  | x :: t => t.foldl max x

/-- Round half to even at integer precision, as Python `round` does. -/
def rhe (x : ℚ) : ℤ :=
  let f := ⌊x⌋
  let r := x - (f : ℚ)
  if r < 1 / 2 then f
  else if 1 / 2 < r then f + 1
  else if Even f then f else f + 1

/-- Python `round(x, 6)`. -/
def round6 (x : ℚ) : ℚ := (rhe (x * 1000000) : ℚ) / 1000000

/-- Finalized feature row (numeric fields only; `service` and `bucket`
identify the group and are not touched by the numeric claims). -/
structure FeatureRow where
  total_logs : ℕ
  unique_events : ℕ
  error_level_count : ℕ
  http_received : ℕ
  http_completed : ℕ
  status_present : ℕ
  duration_present : ℕ
  http_4xx : ℕ
  http_5xx : ℕ
  duration_mean : ℚ
  duration_p95 : ℚ
  duration_max : ℚ
  error_rate : ℚ
  http_4xx_rate : ℚ
  http_5xx_rate : ℚ
  weak_label_anomaly : Bool
deriving DecidableEq

/-- Statistic finalizer of
`anomaly-detection-agent/scripts/build_features.py` (lines 150-182). -/
def finalizeFAcc (g : FAcc) : FeatureRow :=
  let durations := g.durations
  let dur_mean : ℚ := if durations = [] then 0 else durations.sum / (durations.length : ℚ)
  let dur_p95 : ℚ := if durations = [] then 0 else percentile durations (95 / 100)
  let dur_max : ℚ := if durations = [] then 0 else listMax durations
  let total : ℕ := if g.total_logs = 0 then 1 else g.total_logs
  let error_rate : ℚ := (g.error_level_count : ℚ) / (total : ℚ)
  let http_4xx_rate : ℚ :=
    if g.http_completed = 0 then 0 else (g.http_4xx : ℚ) / (g.http_completed : ℚ)
  let http_5xx_rate : ℚ :=
    if g.http_completed = 0 then 0 else (g.http_5xx : ℚ) / (g.http_completed : ℚ)
  { total_logs := g.total_logs
    unique_events := g.events.card
    error_level_count := g.error_level_count
    http_received := g.http_received
    http_completed := g.http_completed
    status_present := g.status_present
    duration_present := g.duration_present
    http_4xx := g.http_4xx
    http_5xx := g.http_5xx
    duration_mean := round6 dur_mean
    duration_p95 := round6 dur_p95
    duration_max := round6 dur_max
    error_rate := round6 error_rate
    http_4xx_rate := round6 http_4xx_rate
    http_5xx_rate := round6 http_5xx_rate
    weak_label_anomaly := g.weak_label_anomaly }

/-- Per-record error-level flag of `anomaly-ml/scripts/build_features.py`:
`level` is `fillna("UNKNOWN")`-ed, upper-cased and compared to `"ERROR"`. -/
def mlIsError (r : LogRec) : Bool := pyUpper (r.level.getD "UNKNOWN") == "ERROR"

/-- Per-record 5xx flag of `anomaly-ml/scripts/build_features.py`:
`(status_code >= 500) & (status_code < 600)`, false on missing status. -/
def mlIs5xx (r : LogRec) : Bool :=
  match r.status_code with
  | some s => decide (500 ≤ s ∧ s < 600)
  | none => false

/-- Per-record 4xx flag of `anomaly-ml/scripts/build_features.py`. -/
def mlIs4xx (r : LogRec) : Bool :=
  match r.status_code with
  | some s => decide (400 ≤ s ∧ s < 500)
  | none => false

/-- The `weak_label_anomaly` column of
`anomaly-ml/scripts/build_features.py` (line 114): a window is labelled
anomalous iff it has a 5xx record or an ERROR-level record. -/
def mlWeakLabel (l : List LogRec) : Bool :=
  decide (0 < l.countP mlIs5xx) || decide (0 < l.countP mlIsError)

/-- The weak-label disjunction as the claim states it, evaluated once over
the fully accumulated bucket: final `http_5xx` positive, or final
`error_level_count` positive, or some record with duration at least 10000. -/
def weakDisj (l : List LogRec) : Bool :=
  decide (0 < l.countP is5xx) || decide (0 < l.countP isErrorLevel) || l.any isLongDuration

end Aggregation

section ConversionDefs

/-- Numeric value of a digit-character list (most significant first). -/
def digitsVal (l : List Char) : ℕ := l.foldl (fun a c => a * 10 + (c.toNat - 48)) 0

/-- Decimal digit characters of `n`, left-padded with zeros to width `w`
(the `%0wd`-style rendering used by `datetime.isoformat`). -/
def natLpadChars (w n : ℕ) : List Char :=
  (List.range w).reverse.map (fun i => Char.ofNat (48 + n / 10 ^ i % 10))

/-- Model of Python `int(str)`: optional surrounding whitespace, an
optional sign, then one or more digits (digit-group underscores are not
modelled; no claim exercises them). -/
def parseIntChars (l0 : List Char) : Option ℤ :=
  let l := stripChars l0
  match l with
  | [] => none
  | c :: t =>
      let sgn : Bool := c = '-'
      let ds : List Char := if c = '-' ∨ c = '+' then t else c :: t
      if ds ≠ [] ∧ ds.all Char.isDigit then
        some (if sgn then -(digitsVal ds : ℤ) else (digitsVal ds : ℤ))
      else none

/-- Model of Python `float(str)` restricted to finite decimal/exponent
literals: optional whitespace and sign, digits with an optional fractional
part, and an optional exponent. (`inf`/`nan` spellings are not modelled;
no claim exercises them.) -/
def parseFloatChars (l0 : List Char) : Option ℚ :=
  let l := stripChars l0
  let (sgn, body) : Bool × List Char :=
    match l with
    | c :: t => if c = '-' then (true, t) else if c = '+' then (false, t) else (false, l)
    | [] => (false, [])
  let (mant, expPart) : List Char × Option (List Char) :=
    match body.span (fun c => !(c == 'e' || c == 'E')) with
    | (m, _ :: e) => (m, some e)
    | (m, []) => (m, none)
  let mantVal : Option ℚ :=
    match mant.span Char.isDigit with
    | (ip, []) => if ip ≠ [] then some ((digitsVal ip : ℚ)) else none
    | (ip, dot :: fp) =>
        if dot = '.' ∧ fp.all Char.isDigit ∧ (ip ≠ [] ∨ fp ≠ []) then
          some ((digitsVal ip : ℚ) + (digitsVal fp : ℚ) / (10 : ℚ) ^ fp.length)
        else none
  let expVal : Option ℤ :=
    match expPart with
    | none => some 0
    | some e =>
        match e with
        | [] => none
        | c :: t =>
            let esgn : Bool := c = '-'
            let eds : List Char := if c = '-' ∨ c = '+' then t else e
            if eds ≠ [] ∧ eds.all Char.isDigit then
              some (if esgn then -(digitsVal eds : ℤ) else (digitsVal eds : ℤ))
            else none
  match mantVal, expVal with
  | some m, some ex =>
      let v := m * (10 : ℚ) ^ ex
      some (if sgn then -v else v)
  | _, _ => none

/-- Approximate rendering of a rational as Python would `str()` the
underlying int/float; the embedding merges Python ints and floats into
`ℚ`, and no claim depends on this rendering. -/
def ratStr (q : ℚ) : String :=
  if q.den = 1 then toString q.num else toString q.num ++ "/" ++ toString q.den

/-- Model of Python `str()` on a JSON value. Containers render in a
`repr`-like form; string escaping inside container `repr` is not
modelled (no claim depends on container rendering). -/
def pyStr : J → String
  | J.null => "None"
  | J.bool true => "True"
  | J.bool false => "False"
  | J.num q => ratStr q
  | J.str s => s
  | J.arr l =>
      "[" ++ String.intercalate ", "
        (l.attach.map (fun x => pyStr x.1)) ++ "]"
  | J.obj l =>
      "\x7b" ++ String.intercalate ", "
        (l.attach.map (fun x => "'" ++ x.1.1 ++ "': " ++ pyStr x.1.2)) ++ "\x7d"
decreasing_by
  · have h1 := List.sizeOf_lt_of_mem x.2
    simp only [J.arr.sizeOf_spec]
    omega
  · have h1 := List.sizeOf_lt_of_mem x.2
    have h2 : sizeOf x.1.2 < sizeOf x.1 := by
      obtain ⟨a, b⟩ := x.1
      simp
    simp only [J.obj.sizeOf_spec]
    omega

/-- The `safe_int` function of
`anomaly-detection-agent/scripts/convert_logs.py` (lines 51-57):
Python `int(x)` with every failure mapped to `None`. -/
def safe_int (x : J) : J :=
  match x with
  | J.null => J.null
  | J.bool b => J.num (if b then 1 else 0)
  | J.num q => J.num ((pyTrunc q : ℤ) : ℚ)
  | J.str s =>
      match parseIntChars s.data with
      | some z => J.num (z : ℚ)
      | none => J.null
  | _ => J.null

/-- The `safe_float` function of
`anomaly-detection-agent/scripts/convert_logs.py` (lines 59-65). -/
def safe_float (x : J) : J :=
  match x with
  | J.null => J.null
  | J.bool b => J.num (if b then 1 else 0)
  | J.num q => J.num q
  | J.str s =>
      match parseFloatChars s.data with
      | some q => J.num q
      | none => J.null
  | _ => J.null

/-- Components of a parsed naive datetime, as produced by
`datetime.strptime`. -/
structure PyDateTime where
  year : ℕ
  month : ℕ
  day : ℕ
  hour : ℕ
  minute : ℕ
  second : ℕ
  usec : ℕ
deriving DecidableEq

/-- Day count of a month, with Gregorian leap years, as validated by the
`datetime` constructor. -/
def daysInMonth (y m : ℕ) : ℕ :=
  if m = 2 then (if (y % 4 = 0 ∧ y % 100 ≠ 0) ∨ y % 400 = 0 then 29 else 28)
  else if m = 4 ∨ m = 6 ∨ m = 9 ∨ m = 11 then 30 else 31

/-- Parse a 1- or 2-digit numeric field with an inclusive value range, as
the `_strptime` regular expressions do; a 2-digit read whose value is out
of range fails outright, matching the regex-plus-separator behaviour
because every following separator is a non-digit. -/
def num2 (lo hi : ℕ) (l : List Char) : Option (ℕ × List Char) :=
  match l with
  | c1 :: c2 :: t =>
      if c1.isDigit then
        if c2.isDigit then
          let v := (c1.toNat - 48) * 10 + (c2.toNat - 48)
          if lo ≤ v ∧ v ≤ hi then some (v, t) else none
        else
          let v := c1.toNat - 48
          if lo ≤ v ∧ v ≤ hi then some (v, c2 :: t) else none
      else none
  | [c1] =>
      if c1.isDigit then
        let v := c1.toNat - 48
        if lo ≤ v ∧ v ≤ hi then some (v, []) else none
      else none
  | [] => none

/-- Parse exactly four digits (`%Y`). -/
def num4 (l : List Char) : Option (ℕ × List Char) :=
  match l with
  | a :: b :: c :: d :: t =>
      if a.isDigit ∧ b.isDigit ∧ c.isDigit ∧ d.isDigit then
        some (digitsVal [a, b, c, d], t)
      else none
  | _ => none

/-- Consume a run of one or more whitespace characters (a literal blank in
a `strptime` format string matches one or more whitespace characters). -/
def wsRun (l : List Char) : Option (List Char) :=
  match l with
  | c :: t => if isPySpace c then some (t.dropWhile isPySpace) else none
  | [] => none

/-- Consume one expected literal character. -/
def litChar (ch : Char) (l : List Char) : Option (List Char) :=
  match l with
  | c :: t => if c = ch then some t else none
  | [] => none

/-- Validation performed by the `datetime` constructor after `_strptime`
field capture: real calendar day, year at least 1 (four-digit fields keep
it below 10000), and seconds below 60 (the leap-second values 60/61 that
the `%S` regex admits make the constructor raise, which `to_iso`
catches). -/
def validDT (y mo d : ℕ) : Bool :=
  decide (1 ≤ y ∧ 1 ≤ d ∧ d ≤ daysInMonth y mo)

/-- Shared field capture of the two `strptime` formats:
`%Y-%m-%d %H:%M:%S` (with microseconds still zero), returning the
remaining input. -/
def strptimeBase (l : List Char) : Option (PyDateTime × List Char) :=
  match num4 l with
  | none => none
  | some (y, r1) =>
  match litChar '-' r1 with
  | none => none
  | some r2 =>
  match num2 1 12 r2 with
  | none => none
  | some (mo, r3) =>
  match litChar '-' r3 with
  | none => none
  | some r4 =>
  match num2 1 31 r4 with
  | none => none
  | some (d, r5) =>
  match wsRun r5 with
  | none => none
  | some r6 =>
  match num2 0 23 r6 with
  | none => none
  | some (h, r7) =>
  match litChar ':' r7 with
  | none => none
  | some r8 =>
  match num2 0 59 r8 with
  | none => none
  | some (mi, r9) =>
  match litChar ':' r9 with
  | none => none
  | some r10 =>
  match num2 0 59 r10 with
  | none => none
  | some (se, r11) => some (⟨y, mo, d, h, mi, se, 0⟩, r11)

/-- Model of `datetime.strptime(s, "%Y-%m-%d %H:%M:%S.%f")`, including
the full-match requirement and constructor validation. -/
def strptime_frac (l : List Char) : Option PyDateTime :=
  match strptimeBase l with
  | none => none
  | some (dt, r11) =>
      match litChar '.' r11 with
      | none => none
      | some r12 =>
          if r12 ≠ [] ∧ r12.length ≤ 6 ∧ r12.all Char.isDigit
              ∧ validDT dt.year dt.month dt.day then
            some { dt with usec := digitsVal r12 * 10 ^ (6 - r12.length) }
          else none

/-- Model of `datetime.strptime(s, "%Y-%m-%d %H:%M:%S")`. -/
def strptime_sec (l : List Char) : Option PyDateTime :=
  match strptimeBase l with
  | none => none
  | some (dt, r11) =>
      if r11 = [] ∧ validDT dt.year dt.month dt.day then some dt else none

/-- Model of `datetime.isoformat()` on a naive datetime: the `T`-separated
rendering, with the microsecond part printed (as six digits) only when
nonzero. -/
def isoformat (dt : PyDateTime) : String :=
  String.mk (natLpadChars 4 dt.year ++ ['-'] ++ natLpadChars 2 dt.month ++ ['-']
    ++ natLpadChars 2 dt.day ++ ['T'] ++ natLpadChars 2 dt.hour ++ [':']
    ++ natLpadChars 2 dt.minute ++ [':'] ++ natLpadChars 2 dt.second
    ++ (if dt.usec = 0 then [] else ['.'] ++ natLpadChars 6 dt.usec))

/-- The `to_iso` function of
`anomaly-detection-agent/scripts/convert_logs.py` (lines 21-49). -/
def to_iso (ts : J) : J :=
  match ts with
  | J.null => J.null
  | x =>
      let s := stripChars (pyStr x).data
      if s.contains 'T' then J.str (String.mk s)
      else
        match strptime_frac s with
        | some dt => J.str (isoformat dt)
        | none =>
            match strptime_sec s with
            | some dt => J.str (isoformat dt)
            | none => J.str (String.mk s)

/-- Hexadecimal digit character. -/
def hexChar (n : ℕ) : Char :=
  if n < 10 then Char.ofNat (48 + n) else Char.ofNat (87 + n)

/-- Stand-in for the truncated hex digest (`sha256`/`sha1` prefix of
12 hex characters) of `hash_stack`; no claim depends on digest values,
only on whether a digest is produced and on its being a string. -/
def digest12 (s : String) : String :=
  let h := s.data.foldl (fun a c => (a * 31 + c.toNat) % 2 ^ 48) 7
  String.mk ((List.range 12).map (fun i => hexChar (h / 16 ^ i % 16)))

/-- The `hash_stack` function of
`anomaly-detection-agent/scripts/convert_logs.py` (lines 67-71): `None`
for falsy input, the truncated digest for a string, and an
`AttributeError` (from `.encode` on a non-string) for any other truthy
value. -/
def hash_stack (stack : J) : Except PyErr J :=
  if pyTruthy stack then
    match stack with
    | J.str s => Except.ok (J.str (digest12 s))
    | _ => Except.error PyErr.attributeError
  else Except.ok J.null

/-- The canonical schema key list (`SCHEMA_KEYS` of `convert_logs.py`). -/
def SCHEMA_KEYS : List String :=
  ["timestamp", "service", "level", "event",
   "request_id", "session_id",
   "method", "path",
   "status_code", "duration_ms",
   "error_message", "error_type", "stacktrace_hash"]

/-- Python `x in [None, ""]` for the error-field normalization (only
`None` and the empty string compare equal to those list members). -/
def isNoneOrEmptyStr (x : J) : Bool :=
  match x with
  | J.null => true
  | J.str s => s == ""
  | _ => false

/-- The key-completion loop of `normalize_log` (lines 121-123): add a
null entry for every schema key not already present. -/
def ensureKeys (norm : List (String × J)) : List (String × J) :=
  SCHEMA_KEYS.foldl
    (fun n k => if (n.map Prod.fst).contains k then n else n ++ [(k, J.null)]) norm

/-- Record construction of `normalize_log` (the dict literal of lines
104-118 followed by the key-completion loop), from the already-resolved
field values. -/
def normalize_log_fields (ts sv lv ev rid sid mth pth sc dm em et hs : J) :
    List (String × J) :=
  ensureKeys
    [("timestamp", ts), ("service", sv), ("level", lv), ("event", ev),
     ("request_id", rid), ("session_id", sid), ("method", mth), ("path", pth),
     ("status_code", sc), ("duration_ms", dm), ("error_message", em),
     ("error_type", et), ("stacktrace_hash", hs)]

/-- The `normalize_log` function of
`anomaly-detection-agent/scripts/convert_logs.py` (lines 73-125).
The only fallible step is `hash_stack` (reached only when no explicit
`stacktrace_hash` is present, by `or` short-circuiting). -/
def normalize_log (obj : List (String × J)) (fallback_service : J) :
    Except PyErr (List (String × J)) :=
  let ts := pyOr (alGet obj "timestamp") (pyOr (alGet obj "ts")
    (pyOr (alGet obj "@timestamp") (alGet obj "time")))
  let service := pyOr (alGet obj "service") (pyOr (alGet obj "svc")
    (pyOr (alGet obj "app") fallback_service))
  let level := pyOr (alGet obj "level") (pyOr (alGet obj "lvl") (alGet obj "severity"))
  let event := pyOr (alGet obj "event") (pyOr (alGet obj "ev")
    (pyOr (alGet obj "message_type") (alGet obj "msgType")))
  let ctx : List (String × J) :=
    match alGet obj "ctx" with
    | J.obj l => l
    | _ => []
  let request_id := pyOr (alGet obj "request_id") (pyOr (alGet obj "requestId")
    (pyOr (alGet ctx "requestId") (alGet ctx "request_id")))
  let session_id := pyOr (alGet obj "session_id") (pyOr (alGet obj "sessionId")
    (pyOr (alGet ctx "sessionId") (alGet ctx "session_id")))
  let method := pyOr (alGet obj "method") (alGet ctx "method")
  let path := pyOr (alGet obj "path") (pyOr (alGet obj "route") (alGet ctx "path"))
  let status_code := pyOr (alGet obj "status_code") (pyOr (alGet obj "status")
    (pyOr (alGet ctx "status_code") (alGet ctx "status")))
  let duration_ms := pyOr (alGet obj "duration_ms") (pyOr (alGet obj "durationMs")
    (pyOr (alGet obj "latency_ms") (alGet ctx "durationMs")))
  let error_message := pyOr (alGet obj "error_message") (pyOr (alGet obj "errorMessage")
    (pyOr (alGet obj "err") (alGet obj "message")))
  let error_type := pyOr (alGet obj "error_type") (pyOr (alGet obj "errorType")
    (pyOr (alGet obj "exception") (alGet obj "name")))
  let stack := pyOr (alGet obj "stack") (pyOr (alGet obj "stacktrace") (alGet obj "trace"))
  Except.map
    (fun hs => normalize_log_fields (to_iso ts) service
      (if pyTruthy level then J.str (pyUpper (pyStr level)) else J.null) event
      request_id session_id method path (safe_int status_code) (safe_float duration_ms)
      (if isNoneOrEmptyStr error_message then J.null else error_message)
      (if isNoneOrEmptyStr error_type then J.null else error_type) hs)
    (if pyTruthy (alGet obj "stacktrace_hash") then Except.ok (alGet obj "stacktrace_hash")
     else hash_stack stack)

/-- Outcome of one line of the `convert_logs.py` main loop. -/
inductive LineOutcome where
  | writtenRec (r : List (String × J))
  | skippedInvalidJson
  | skippedNotObject

/-- Per-line processing of the `convert_logs.py` main loop (lines
154-177), starting from the result of `json.loads` (`none` models a JSON
decode failure): invalid JSON and non-object lines are skipped and
counted; every object line is normalized and written with no validity
filter, and `normalize_log` runs outside any try/except. -/
def convertLogsLine (parsed : Option J) (fallback : J) : Except PyErr LineOutcome :=
  match parsed with
  | none => Except.ok LineOutcome.skippedInvalidJson
  | some (J.obj fields) =>
      match normalize_log fields fallback with
      | Except.error e => Except.error e
      | Except.ok r => Except.ok (LineOutcome.writtenRec r)
  | some _ => Except.ok LineOutcome.skippedNotObject

end ConversionDefs

section JsonParsing

/-- Python dict assignment `d[k] = v`: update in place when the key
exists, else append (insertion order preserved). -/
def alSet (d : List (String × J)) (k : String) (v : J) : List (String × J) :=
  if (d.map Prod.fst).contains k then
    d.map (fun kv => if kv.1 == k then (kv.1, v) else kv)
  else d ++ [(k, v)]

/-- JSON insignificant whitespace skip. -/
def jsonWsSkip (l : List Char) : List Char :=
  l.dropWhile (fun c => c == ' ' || c == '\t' || c == '\n' || c == '\r')

/-- Hexadecimal digit value. -/
def hexVal (c : Char) : Option ℕ :=
  if c.isDigit then some (c.toNat - 48)
  else if 'a' ≤ c ∧ c ≤ 'f' then some (c.toNat - 87)
  else if 'A' ≤ c ∧ c ≤ 'F' then some (c.toNat - 55)
  else none

/-- JSON string escape characters. -/
def escChar (e : Char) : Option Char :=
  if e = '"' then some '"'
  else if e = '\\' then some '\\'
  else if e = '/' then some '/'
  else if e = 'b' then some (Char.ofNat 8)
  else if e = 'f' then some (Char.ofNat 12)
  else if e = 'n' then some '\n'
  else if e = 'r' then some '\r'
  else if e = 't' then some '\t'
  else none

/-- Body of a JSON string after the opening quote: content characters and
the remaining input. Control characters are rejected (`json.loads` strict
mode); surrogate pairing of `\u` escapes is not modelled. -/
def parseJStrBody : List Char → Option (List Char × List Char)
  | [] => none
  | c :: t =>
      if c = '"' then some ([], t)
      else if c = '\\' then
        match t with
        | e :: t2 =>
            if e = 'u' then
              match t2 with
              | h1 :: h2 :: h3 :: h4 :: t3 =>
                  match hexVal h1, hexVal h2, hexVal h3, hexVal h4 with
                  | some a, some b, some c4, some d =>
                      match parseJStrBody t3 with
                      | some (cs, r) => some (Char.ofNat (((a * 16 + b) * 16 + c4) * 16 + d) :: cs, r)
                      | none => none
                  | _, _, _, _ => none
              | _ => none
            else
              match escChar e with
              | some ec =>
                  match parseJStrBody t2 with
                  | some (cs, r) => some (ec :: cs, r)
                  | none => none
              | none => none
        | [] => none
      else if c.toNat < 32 then none
      else
        match parseJStrBody t with
        | some (cs, r) => some (c :: cs, r)
        | none => none

/-- Fractional part and exponent of a JSON number, given the integer part
value; groups that do not match are left unconsumed, as with the
`json` scanner's regular expression. -/
def parseFracExp (ip : ℕ) (l : List Char) : ℚ × List Char :=
  let (mval, l2) : ℚ × List Char :=
    match l with
    | '.' :: t =>
        match t.span Char.isDigit with
        | ([], _) => ((ip : ℚ), '.' :: t)
        | (fd, r) => ((ip : ℚ) + (digitsVal fd : ℚ) / (10 : ℚ) ^ fd.length, r)
    | _ => ((ip : ℚ), l)
  match l2 with
  | c :: t =>
      if c = 'e' ∨ c = 'E' then
        let (es, t2) : Bool × List Char :=
          match t with
          | '-' :: u => (true, u)
          | '+' :: u => (false, u)
          | _ => (false, t)
        match t2.span Char.isDigit with
        | ([], _) => (mval, l2)
        | (eds, r) => (mval * (10 : ℚ) ^ (if es then -(digitsVal eds : ℤ) else (digitsVal eds : ℤ)), r)
      else (mval, l2)
  | [] => (mval, [])

/-- JSON number: optional minus, `0 | [1-9][0-9]*`, optional fraction and
exponent. -/
def parseJNum (l : List Char) : Option (ℚ × List Char) :=
  let (sgn, l1) : Bool × List Char :=
    match l with
    | '-' :: t => (true, t)
    | _ => (false, l)
  match l1 with
  | c :: t =>
      if c = '0' then
        let (q, r) := parseFracExp 0 t
        some ((if sgn then -q else q), r)
      else if c.isDigit then
        let (ds, rest) := t.span Char.isDigit
        let (q, r) := parseFracExp (digitsVal (c :: ds)) rest
        some ((if sgn then -q else q), r)
      else none
  | [] => none

mutual

/-- Fuel-indexed recursive-descent JSON value parse (model of
`json.loads` scanning). -/
def parseJVal : ℕ → List Char → Option (J × List Char)
  | 0, _ => none
  | fuel + 1, l =>
      match jsonWsSkip l with
      | [] => none
      | c :: t =>
          if c = 'n' then
            match t with
            | 'u' :: 'l' :: 'l' :: r => some (J.null, r)
            | _ => none
          else if c = 't' then
            match t with
            | 'r' :: 'u' :: 'e' :: r => some (J.bool true, r)
            | _ => none
          else if c = 'f' then
            match t with
            | 'a' :: 'l' :: 's' :: 'e' :: r => some (J.bool false, r)
            | _ => none
          else if c = '"' then
            match parseJStrBody t with
            | some (cs, r) => some (J.str (String.mk cs), r)
            | none => none
          else if c = '[' then
            match jsonWsSkip t with
            | ']' :: r => some (J.arr [], r)
            | _ => parseJArrElems fuel t []
          else if c = Char.ofNat 123 then
            match jsonWsSkip t with
            | c2 :: r =>
                if c2 = Char.ofNat 125 then some (J.obj [], r)
                else parseJObjMembers fuel t []
            | [] => none
          else
            match parseJNum (c :: t) with
            | some (q, r) => some (J.num q, r)
            | none => none

/-- Comma-separated array elements, after the opening bracket. -/
def parseJArrElems : ℕ → List Char → List J → Option (J × List Char)
  | 0, _, _ => none
  | fuel + 1, l, acc =>
      match parseJVal fuel l with
      | some (v, r) =>
          match jsonWsSkip r with
          | ',' :: r2 => parseJArrElems fuel r2 (acc ++ [v])
          | ']' :: r2 => some (J.arr (acc ++ [v]), r2)
          | _ => none
      | none => none

/-- Comma-separated object members, after the opening brace. A repeated
key overwrites in place, as in a Python dict. -/
def parseJObjMembers : ℕ → List Char → List (String × J) → Option (J × List Char)
  | 0, _, _ => none
  | fuel + 1, l, acc =>
      match jsonWsSkip l with
      | '"' :: t =>
          match parseJStrBody t with
          | some (k, r) =>
              match jsonWsSkip r with
              | ':' :: r2 =>
                  match parseJVal fuel r2 with
                  | some (v, r3) =>
                      match jsonWsSkip r3 with
                      | ',' :: r4 => parseJObjMembers fuel r4 (alSet acc (String.mk k) v)
                      | c5 :: r4 =>
                          if c5 = Char.ofNat 125 then
                            some (J.obj (alSet acc (String.mk k) v), r4)
                          else none
                      | [] => none
                  | none => none
              | _ => none
          | none => none
      | _ => none

end

/-- The `safe_json_loads` helper of `anomaly-ml/scripts/convert_all.py`
(lines 11-15): `json.loads` with every failure mapped to `None`. The fuel
bound exceeds any possible nesting/sibling chain of the input. -/
def safe_json_loads (s : String) : Option J :=
  match parseJVal (2 * s.length + 8) s.data with
  | some (v, r) => if jsonWsSkip r = [] then some v else none
  | none => none

end JsonParsing

section ConvertAllDefs

/-- Python `dict.get` on a string-valued dict. -/
def alGetStr (d : List (String × String)) (k : String) : Option String :=
  match d.find? (fun kv => kv.1 == k) with
  | some kv => some kv.2
  | none => none

/-- Python `d[k] = v` on a string-valued dict. -/
def alSetStr (d : List (String × String)) (k v : String) : List (String × String) :=
  if (d.map Prod.fst).contains k then
    d.map (fun kv => if kv.1 == k then (kv.1, v) else kv)
  else d ++ [(k, v)]

/-- First index at which `pat` occurs as a contiguous substring of
`hay` (Python `str.index` / the `in` operator). -/
def subIdx (hay pat : List Char) : Option ℕ :=
  (List.range (hay.length + 1)).find? (fun i => pat.isPrefixOf (hay.drop i))

/-- Python `pat in hay` substring containment. -/
def containsSub (hay pat : List Char) : Bool := (subIdx hay pat).isSome

/-- Python `s.split(sep, 1)` for a one-character separator `=`: the text
before the first `=` and everything after it; `none` when no `=` occurs
(the loop's `"=" not in p` guard). -/
def splitOnceEq (s : String) : Option (String × String) :=
  match s.data.span (fun c => c != '=') with
  | (k, _ :: v) => some (String.mk k, String.mk v)
  | (_, []) => none

/-- The `normalize_base` function of `anomaly-ml/scripts/convert_all.py`
(lines 22-42): project onto exactly the 13 schema keys. -/
def normalize_base (obj : List (String × J)) : List (String × J) :=
  [("timestamp", alGet obj "timestamp"),
   ("service", alGet obj "service"),
   ("level", alGet obj "level"),
   ("event", alGet obj "event"),
   ("request_id", alGet obj "request_id"),
   ("session_id", alGet obj "session_id"),
   ("method", alGet obj "method"),
   ("path", alGet obj "path"),
   ("status_code", alGet obj "status_code"),
   ("duration_ms", alGet obj "duration_ms"),
   ("error_message", alGet obj "error_message"),
   ("error_type", alGet obj "error_type"),
   ("stacktrace_hash", alGet obj "stacktrace_hash")]

/-- Derived `error_type` of a stack text:
`re.match(r"^([A-Za-z0-9_]+):", stack.strip())`. -/
def errTypeOfStack (s : String) : Option String :=
  let t := stripChars s.data
  let ident := t.takeWhile (fun c => c.isAlphanum || c == '_')
  match t.drop ident.length with
  | c :: _ => if c = ':' ∧ ident ≠ [] then some (String.mk ident) else none
  | [] => none

/-- The `error_type`/`stacktrace_hash` enrichment shared by the node and
delivery matchers (`if isinstance(stack, str) and stack:`). -/
def stackDerived (stack : J) : J × J :=
  match stack with
  | J.str s =>
      if s ≠ "" then
        ((match errTypeOfStack s with
          | some t => J.str t
          | none => J.null), J.str (digest12 s))
      else (J.null, J.null)
  | _ => (J.null, J.null)

/-- Python `s.split("|")` for the one-character separator, on character
lists: all segments, empty ones included. -/
def splitOnChar (sep : Char) : List Char → List (List Char)
  | [] => [[]]
  | c :: t =>
      if c = sep then [] :: splitOnChar sep t
      else
        match splitOnChar sep t with
        | h :: r => (c :: h) :: r
        | [] => [[c]]

/-- Python `seg.split("=", 1)` on character lists (`none` when no `=`). -/
def splitOnceEqC (s : List Char) : Option (List Char × List Char) :=
  match s.span (fun c => c != '=') with
  | (k, _ :: v) => some (k, v)
  | (_, []) => none

/-- Python `x.get(k)` on a value of unknown type: succeeds on a dict,
raises `AttributeError` on anything else. -/
def jGet (j : J) (k : String) : Except PyErr J :=
  match j with
  | J.obj l => Except.ok (alGet l k)
  | _ => Except.error PyErr.attributeError

/-- Output construction of `parse_node_style` from the folded `base`
dict and the decoded `data` object (the dict-literal of lines 60-77 plus
the stack enrichment): each `data_obj.get` raises `AttributeError` when
`data_obj` is not a dict. -/
def node_out (base : List (String × String)) (data_obj : J) (service_default : String) :
    Except PyErr (List (String × J)) :=
  let strOpt : Option String → J := fun o =>
    match o with
    | some s => J.str s
    | none => J.null
  match jGet data_obj "requestId" with
  | Except.error e => Except.error e
  | Except.ok request_id =>
  match jGet data_obj "sessionId" with
  | Except.error e => Except.error e
  | Except.ok session_id =>
  match jGet data_obj "method" with
  | Except.error e => Except.error e
  | Except.ok method =>
  match jGet data_obj "path" with
  | Except.error e => Except.error e
  | Except.ok path =>
  match jGet data_obj "status" with
  | Except.error e => Except.error e
  | Except.ok status_code =>
  match jGet data_obj "durationMs" with
  | Except.error e => Except.error e
  | Except.ok duration_ms =>
  match jGet data_obj "error" with
  | Except.error e => Except.error e
  | Except.ok error_message =>
  match jGet data_obj "stack" with
  | Except.error e => Except.error e
  | Except.ok stack =>
    let d := stackDerived stack
    let out : List (String × J) :=
      [("timestamp", strOpt (alGetStr base "ts")),
       ("service", pyOr (strOpt (alGetStr base "svc")) (J.str service_default)),
       ("level", strOpt (alGetStr base "level")),
       ("event", strOpt (alGetStr base "event")),
       ("request_id", request_id),
       ("session_id", session_id),
       ("method", method),
       ("path", path),
       ("status_code", status_code),
       ("duration_ms", duration_ms),
       ("error_message", error_message),
       ("error_type", d.1),
       ("stacktrace_hash", d.2)]
    Except.ok (normalize_base out)

/-- The `parse_node_style` function of
`anomaly-ml/scripts/convert_all.py` (lines 44-85): fold the pipe
segments into the `base` dict and the `data` object, then build the
record. -/
def parse_node_style (line : String) (service_default : String) :
    Except PyErr (List (String × J)) :=
  let parts := (splitOnChar '|' line.data).map (fun p => stripChars p)
  let step := fun (st : List (String × String) × J) (p : List Char) =>
    match splitOnceEqC p with
    | none => st
    | some (k0, v0) =>
        let k := String.mk (stripChars k0)
        let v := String.mk (stripChars v0)
        if k = "data" then
          (st.1, pyOr (match safe_json_loads v with
            | some j => j
            | none => J.null) (J.obj []))
        else (alSetStr st.1 k v, st.2)
  let st := parts.foldl step ([], J.obj [])
  node_out st.1 st.2 service_default

/-- Last index of a character in a list. -/
def lastIdxOf (l : List Char) (c : Char) : Option ℕ :=
  match l.reverse.findIdx? (fun x => x == c) with
  | some k => some (l.length - 1 - k)
  | none => none

/-- The `re.search(r"(\x7b.*\x7d)", v)` extraction of the delivery
matcher: the leftmost-longest match runs from the first opening brace
that precedes the last closing brace, through that last closing brace
(`.*` is greedy and dots match everything except newlines, which cannot
occur inside one line). -/
def braceExtract (v : String) : Option String :=
  let l := v.data
  match lastIdxOf l (Char.ofNat 125) with
  | none => none
  | some j =>
      match l.findIdx? (fun x => x == Char.ofNat 123) with
      | some i => if i < j then some (String.mk ((l.drop i).take (j - i + 1))) else none
      | none => none

/-- Segment-fold state of the delivery matcher: the `base` dict fields
(`service`, `timestamp`, `level`, `event`) plus the decoded `ctx`
object. -/
structure DeliveryState where
  service : J
  timestamp : J
  level : J
  event : J
  ctx : List (String × J)

/-- One segment step of `parse_delivery_style` (lines 101-123). -/
def deliveryStep (st : DeliveryState) (seg0 : List Char) : DeliveryState :=
  let seg := stripChars seg0
  if seg = "DELIVERY".data then { st with service := J.str "delivery-service" }
  else
    match splitOnceEqC seg with
    | none => st
    | some (k0, v0) =>
        let k := stripChars k0
        let v := String.mk (stripChars v0)
        if k = "ts".data then { st with timestamp := J.str v }
        else if k = "lvl".data then { st with level := J.str (pyUpper v) }
        else if k = "ev".data then { st with event := J.str v }
        else if k = "ctx".data then
          { st with ctx :=
              match braceExtract v with
              | some sub =>
                  match safe_json_loads sub with
                  | some (J.obj l) => l
                  | _ => []
              | none => [] }
        else st

/-- The `parse_delivery_style` function of
`anomaly-ml/scripts/convert_all.py` (lines 87-150). -/
def parse_delivery_style (line : String) (service_default : String) :
    Option (List (String × J)) :=
  if ¬containsSub line.data "DELIVERY|".data then none
  else
    let start := (subIdx line.data "DELIVERY|".data).getD 0
    let segments := splitOnChar '|' (stripChars (line.data.drop start))
    let st := segments.foldl deliveryStep
      ⟨J.str service_default, J.null, J.null, J.null, []⟩
    let d := stackDerived (alGet st.ctx "stack")
    let out : List (String × J) :=
      [("timestamp", st.timestamp),
       ("service", pyOr st.service (J.str service_default)),
       ("level", st.level),
       ("event", st.event),
       ("request_id", alGet st.ctx "requestId"),
       ("session_id", alGet st.ctx "sessionId"),
       ("method", alGet st.ctx "method"),
       ("path", alGet st.ctx "path"),
       ("status_code", pyOr (alGet st.ctx "status") (alGet st.ctx "statusCode")),
       ("duration_ms", pyOr (alGet st.ctx "durationMs") (alGet st.ctx "duration")),
       ("error_message", alGet st.ctx "error"),
       ("error_type", d.1),
       ("stacktrace_hash", d.2)]
    some (normalize_base out)

end ConvertAllDefs

section ParseAnyDefs

/-- Exactly `n` digit characters. -/
def takeDigitsExact (n : ℕ) (l : List Char) : Option (List Char × List Char) :=
  let d := l.take n
  if d.length = n ∧ d.all Char.isDigit then some (d, l.drop n) else none

/-- Date prefix of the spring pattern: `\d\x7b4\x7d-\d\x7b2\x7d-\d\x7b2\x7d`,
keeping the captured characters. -/
def springDate (l : List Char) : Option (List Char × List Char) :=
  match takeDigitsExact 4 l with
  | none => none
  | some (d1, r1) =>
  match litChar '-' r1 with
  | none => none
  | some r2 =>
  match takeDigitsExact 2 r2 with
  | none => none
  | some (d2, r3) =>
  match litChar '-' r3 with
  | none => none
  | some r4 =>
  match takeDigitsExact 2 r4 with
  | none => none
  | some (d3, r5) => some (d1 ++ ['-'] ++ d2 ++ ['-'] ++ d3, r5)

/-- Time-of-day of the spring pattern:
`\d\x7b2\x7d:\d\x7b2\x7d:\d\x7b2\x7d.\d\x7b3\x7d`. -/
def springTime (l : List Char) : Option (List Char × List Char) :=
  match takeDigitsExact 2 l with
  | none => none
  | some (t1, r1) =>
  match litChar ':' r1 with
  | none => none
  | some r2 =>
  match takeDigitsExact 2 r2 with
  | none => none
  | some (t2, r3) =>
  match litChar ':' r3 with
  | none => none
  | some r4 =>
  match takeDigitsExact 2 r4 with
  | none => none
  | some (t3, r5) =>
  match litChar '.' r5 with
  | none => none
  | some r6 =>
  match takeDigitsExact 3 r6 with
  | none => none
  | some (t4, r7) => some (t1 ++ [':'] ++ t2 ++ [':'] ++ t3 ++ ['.'] ++ t4, r7)

/-- A bracketed group `\[[^\]]+\]` of the spring pattern. -/
def springBracket (l : List Char) : Option (List Char × List Char) :=
  match litChar '[' l with
  | none => none
  | some r1 =>
      let content := r1.takeWhile (fun c => c != ']')
      if content = [] then none
      else
        match litChar ']' (r1.drop content.length) with
        | none => none
        | some r2 => some (content, r2)

/-- Field capture of the spring regex on the stripped line: date, time,
level, service and message captures (the thread and logger groups are
matched but unused by the output). -/
def springFields (l : List Char) :
    Option (List Char × List Char × List Char × List Char × List Char) :=
  match springDate l with
  | none => none
  | some (dateCs, r5) =>
  match wsRun r5 with
  | none => none
  | some r6 =>
  match springTime r6 with
  | none => none
  | some (timeCs, r13) =>
  match wsRun r13 with
  | none => none
  | some r14 =>
    let lev := r14.takeWhile (fun c => decide ('A' ≤ c ∧ c ≤ 'Z'))
    if lev = [] then none
    else
      match wsRun (r14.drop lev.length) with
      | none => none
      | some r16 =>
      match springBracket r16 with
      | none => none
      | some (svc, r18) =>
      match wsRun r18 with
      | none => none
      | some r19 =>
      match springBracket r19 with
      | none => none
      | some (_, r21) =>
      match wsRun r21 with
      | none => none
      | some r22 =>
        let lg := r22.takeWhile (fun c => c != ' ')
        if lg = [] then none
        else
          match wsRun (r22.drop lg.length) with
          | none => none
          | some r24 =>
          match litChar '-' r24 with
          | none => none
          | some r25 =>
          match wsRun r25 with
          | none => none
          | some r26 => some (dateCs, timeCs, lev, svc, r26)

/-- The `parse_spring_style` function of
`anomaly-ml/scripts/convert_all.py` (lines 152-180): the fixed spring
regex, matched deterministically (every adjacent pair of greedy pieces
in the pattern is disjoint, so the regex engine never backtracks on the
inputs the pattern accepts). -/
def parse_spring_style (line : String) (service_default : String) :
    Option (List (String × J)) :=
  match springFields (stripChars line.data) with
  | none => none
  | some (dateCs, timeCs, lev, svc, msg) =>
      let out : List (String × J) :=
        [("timestamp", J.str (String.mk (dateCs ++ ['T'] ++ timeCs))),
         ("service", pyOr (J.str (String.mk svc)) (J.str service_default)),
         ("level", J.str (String.mk lev)),
         ("event", J.str "app.log"),
         ("request_id", J.null),
         ("session_id", J.null),
         ("method", J.null),
         ("path", J.null),
         ("status_code", J.null),
         ("duration_ms", J.null),
         ("error_message", J.str (String.mk msg)),
         ("error_type", J.null),
         ("stacktrace_hash", J.null)]
      some (normalize_base out)

/-- Python `line.rstrip("\n")`. -/
def rstripNl (s : String) : String :=
  String.mk ((s.data.reverse.dropWhile (fun c => c == '\n')).reverse)

/-- The JSON-line alias mapping of `parse_any`
(`anomaly-ml/scripts/convert_all.py`, lines 200-220), including the
upper-casing of a string-valued level. -/
def jsonLineOut (obj : List (String × J)) (service_default : String) :
    List (String × J) :=
  let out : List (String × J) :=
    [("timestamp", pyOr (alGet obj "timestamp") (pyOr (alGet obj "ts") (alGet obj "time"))),
     ("service", pyOr (alGet obj "service") (pyOr (alGet obj "svc") (J.str service_default))),
     ("level", pyOr (alGet obj "level") (alGet obj "lvl")),
     ("event", pyOr (alGet obj "event") (pyOr (alGet obj "ev")
        (pyOr (alGet obj "msg") (alGet obj "message")))),
     ("request_id", pyOr (alGet obj "request_id") (alGet obj "requestId")),
     ("session_id", pyOr (alGet obj "session_id") (alGet obj "sessionId")),
     ("method", alGet obj "method"),
     ("path", pyOr (alGet obj "path") (alGet obj "url")),
     ("status_code", pyOr (alGet obj "status_code") (alGet obj "status")),
     ("duration_ms", pyOr (alGet obj "duration_ms") (alGet obj "durationMs")),
     ("error_message", pyOr (alGet obj "error") (alGet obj "error_message")),
     ("error_type", alGet obj "error_type"),
     ("stacktrace_hash", alGet obj "stacktrace_hash")]
  let out2 :=
    match alGet out "level" with
    | J.str s => alSet out "level" (J.str (pyUpper s))
    | _ => out
  normalize_base out2

/-- Non-JSON fallthrough of `parse_any` (lines 222-233): node style,
then delivery style, then spring style. -/
def parse_any_rest (line : String) (service_default : String) :
    Except PyErr (Option (List (String × J))) :=
  if containsSub line.data "svc=".data ∧ containsSub line.data "| event=".data then
    Except.map some (parse_node_style line service_default)
  else if containsSub line.data "DELIVERY|".data then
    Except.ok (parse_delivery_style line service_default)
  else
    Except.ok (parse_spring_style line service_default)

/-- The `parse_any` dispatcher of `anomaly-ml/scripts/convert_all.py`
(lines 192-233): blank lines yield `none`; a braced line that decodes to
a JSON object is mapped through the alias table; otherwise the node,
delivery and spring matchers are tried in order. A failed or non-object
JSON decode falls through to the other matchers. -/
def parse_any (line0 : String) (service_default : String) :
    Except PyErr (Option (List (String × J))) :=
  if pyStrip (rstripNl line0) = "" then Except.ok none
  else
    match (if (pyStrip (rstripNl line0)).data.head? = some (Char.ofNat 123)
          ∧ (pyStrip (rstripNl line0)).data.getLast? = some (Char.ofNat 125)
        then
          match safe_json_loads (pyStrip (rstripNl line0)) with
          | some (J.obj fields) => some (jsonLineOut fields service_default)
          | _ => none
        else none) with
    | some out => Except.ok (some out)
    | none => parse_any_rest (rstripNl line0) service_default

/-- The `is_valid` filter of `anomaly-ml/scripts/convert_all.py`
(lines 182-190), written on Python truthiness as in the source. -/
def is_valid (obj : List (String × J)) : Bool :=
  if ¬pyTruthy (alGet obj "timestamp") then false
  else if ¬pyTruthy (alGet obj "service") then false
  else if ¬pyTruthy (alGet obj "event") ∧ ¬pyTruthy (alGet obj "level")
      ∧ ¬pyTruthy (alGet obj "error_message") then false
  else true

/-- Per-line processing of the `convert_all.py` main loop (lines
253-262): a line is written exactly when `parse_any` produces a record
that passes `is_valid`; otherwise it is skipped and counted. -/
def convertAllLine (line : String) (service_default : String) :
    Except PyErr (Option (List (String × J))) :=
  match parse_any line service_default with
  | Except.error e => Except.error e
  | Except.ok (some obj) =>
      if is_valid obj then Except.ok (some obj) else Except.ok none
  | Except.ok none => Except.ok none

end ParseAnyDefs

section AggregationLemmas

theorem updFAcc_total (g : FAcc) (r : LogRec) :
    (updFAcc g r).total_logs = g.total_logs + 1 := rfl

theorem updFAcc_err (g : FAcc) (r : LogRec) :
    (updFAcc g r).error_level_count
      = g.error_level_count + (if isErrorLevel r then 1 else 0) := rfl

theorem updFAcc_recv (g : FAcc) (r : LogRec) :
    (updFAcc g r).http_received
      = g.http_received + (if isHttpReceived r then 1 else 0) := rfl

theorem updFAcc_comp (g : FAcc) (r : LogRec) :
    (updFAcc g r).http_completed
      = g.http_completed + (if isHttpCompleted r then 1 else 0) := rfl

theorem updFAcc_status (g : FAcc) (r : LogRec) :
    (updFAcc g r).status_present
      = g.status_present + (if r.status_code.isSome then 1 else 0) := rfl

theorem updFAcc_durpres (g : FAcc) (r : LogRec) :
    (updFAcc g r).duration_present
      = g.duration_present + (if r.duration_ms.isSome then 1 else 0) := rfl

theorem updFAcc_4xx (g : FAcc) (r : LogRec) :
    (updFAcc g r).http_4xx = g.http_4xx + (if is4xx r then 1 else 0) := rfl

theorem updFAcc_5xx (g : FAcc) (r : LogRec) :
    (updFAcc g r).http_5xx = g.http_5xx + (if is5xx r then 1 else 0) := rfl

theorem updFAcc_durations (g : FAcc) (r : LogRec) :
    (updFAcc g r).durations
      = g.durations ++ (match r.duration_ms with
        | some d => [d]
        | none => []) := rfl

theorem updFAcc_events (g : FAcc) (r : LogRec) :
    (updFAcc g r).events
      = (match evOf r with
        | some e => insert e g.events
        | none => g.events) := rfl

theorem updFAcc_weak (g : FAcc) (r : LogRec) :
    (updFAcc g r).weak_label_anomaly
      = ((g.weak_label_anomaly
          || (decide (0 < g.http_5xx + (if is5xx r then 1 else 0))
              || decide (0 < g.error_level_count + (if isErrorLevel r then 1 else 0))))
        || isLongDuration r) := rfl

theorem fold_total (l : List LogRec) : ∀ g : FAcc,
    (l.foldl updFAcc g).total_logs = g.total_logs + l.length := by
  induction l with
  | nil => intro g; simp
  | cons r t ih =>
      intro g
      simp only [List.foldl_cons, ih, updFAcc_total, List.length_cons]
      omega

theorem fold_err (l : List LogRec) : ∀ g : FAcc,
    (l.foldl updFAcc g).error_level_count
      = g.error_level_count + l.countP isErrorLevel := by
  induction l with
  | nil => intro g; simp
  | cons r t ih =>
      intro g
      simp only [List.foldl_cons, ih, updFAcc_err, List.countP_cons]
      omega

theorem fold_recv (l : List LogRec) : ∀ g : FAcc,
    (l.foldl updFAcc g).http_received
      = g.http_received + l.countP isHttpReceived := by
  induction l with
  | nil => intro g; simp
  | cons r t ih =>
      intro g
      simp only [List.foldl_cons, ih, updFAcc_recv, List.countP_cons]
      omega

theorem fold_comp (l : List LogRec) : ∀ g : FAcc,
    (l.foldl updFAcc g).http_completed
      = g.http_completed + l.countP isHttpCompleted := by
  induction l with
  | nil => intro g; simp
  | cons r t ih =>
      intro g
      simp only [List.foldl_cons, ih, updFAcc_comp, List.countP_cons]
      omega

theorem fold_status (l : List LogRec) : ∀ g : FAcc,
    (l.foldl updFAcc g).status_present
      = g.status_present + l.countP (fun r => r.status_code.isSome) := by
  induction l with
  | nil => intro g; simp
  | cons r t ih =>
      intro g
      simp only [List.foldl_cons, ih, updFAcc_status, List.countP_cons]
      omega

theorem fold_durpres (l : List LogRec) : ∀ g : FAcc,
    (l.foldl updFAcc g).duration_present
      = g.duration_present + l.countP (fun r => r.duration_ms.isSome) := by
  induction l with
  | nil => intro g; simp
  | cons r t ih =>
      intro g
      simp only [List.foldl_cons, ih, updFAcc_durpres, List.countP_cons]
      omega

theorem fold_4xx (l : List LogRec) : ∀ g : FAcc,
    (l.foldl updFAcc g).http_4xx = g.http_4xx + l.countP is4xx := by
  induction l with
  | nil => intro g; simp
  | cons r t ih =>
      intro g
      simp only [List.foldl_cons, ih, updFAcc_4xx, List.countP_cons]
      omega

theorem fold_5xx (l : List LogRec) : ∀ g : FAcc,
    (l.foldl updFAcc g).http_5xx = g.http_5xx + l.countP is5xx := by
  induction l with
  | nil => intro g; simp
  | cons r t ih =>
      intro g
      simp only [List.foldl_cons, ih, updFAcc_5xx, List.countP_cons]
      omega

theorem fold_durations (l : List LogRec) : ∀ g : FAcc,
    (l.foldl updFAcc g).durations
      = g.durations ++ l.filterMap (fun r => r.duration_ms) := by
  induction l with
  | nil => intro g; simp
  | cons r t ih =>
      intro g
      simp only [List.foldl_cons, ih, updFAcc_durations, List.filterMap_cons]
      cases h : r.duration_ms <;> simp [h]

theorem fold_events (l : List LogRec) : ∀ g : FAcc,
    (l.foldl updFAcc g).events
      = g.events ∪ (l.filterMap evOf).toFinset := by
  induction l with
  | nil => intro g; simp
  | cons r t ih =>
      intro g
      simp only [List.foldl_cons, ih, updFAcc_events, List.filterMap_cons]
      cases h : evOf r with
      | none => simp
      | some e =>
          simp only [List.toFinset_cons]
          rw [Finset.insert_union, Finset.union_insert]

end AggregationLemmas

section WeakLabelAndPerm

theorem fold_weak (l : List LogRec) : ∀ g : FAcc,
    (l.foldl updFAcc g).weak_label_anomaly
      = (g.weak_label_anomaly
        || (decide (l ≠ []) && (decide (0 < (l.foldl updFAcc g).http_5xx)
             || decide (0 < (l.foldl updFAcc g).error_level_count)))
        || l.any isLongDuration) := by
  induction l with
  | nil => intro g; simp
  | cons r t ih =>
      intro g
      rw [List.foldl_cons, ih (updFAcc g r), updFAcc_weak, fold_5xx, fold_err,
        updFAcc_5xx, updFAcc_err, List.any_cons]
      by_cases ht : t = []
      · subst ht
        simp [Bool.or_assoc]
      · have h1 : decide (t ≠ []) = true := decide_eq_true ht
        have h2 : decide ((r :: t) ≠ []) = true := by simp
        simp only [h1, h2, Bool.true_and]
        rw [Bool.eq_iff_iff]
        simp only [Bool.or_eq_true, decide_eq_true_eq]
        cases hw : g.weak_label_anomaly <;>
          cases hd0 : isLongDuration r <;>
          cases ha : t.any isLongDuration <;>
          simp <;> omega

theorem foldFAcc_total (l : List LogRec) : (foldFAcc l).total_logs = l.length := by
  simp [foldFAcc, fold_total, initFAcc]

theorem foldFAcc_err (l : List LogRec) :
    (foldFAcc l).error_level_count = l.countP isErrorLevel := by
  simp [foldFAcc, fold_err, initFAcc]

theorem foldFAcc_recv (l : List LogRec) :
    (foldFAcc l).http_received = l.countP isHttpReceived := by
  simp [foldFAcc, fold_recv, initFAcc]

theorem foldFAcc_comp (l : List LogRec) :
    (foldFAcc l).http_completed = l.countP isHttpCompleted := by
  simp [foldFAcc, fold_comp, initFAcc]

theorem foldFAcc_status (l : List LogRec) :
    (foldFAcc l).status_present = l.countP (fun r => r.status_code.isSome) := by
  simp [foldFAcc, fold_status, initFAcc]

theorem foldFAcc_durpres (l : List LogRec) :
    (foldFAcc l).duration_present = l.countP (fun r => r.duration_ms.isSome) := by
  simp [foldFAcc, fold_durpres, initFAcc]

theorem foldFAcc_4xx (l : List LogRec) : (foldFAcc l).http_4xx = l.countP is4xx := by
  simp [foldFAcc, fold_4xx, initFAcc]

theorem foldFAcc_5xx (l : List LogRec) : (foldFAcc l).http_5xx = l.countP is5xx := by
  simp [foldFAcc, fold_5xx, initFAcc]

theorem foldFAcc_durations (l : List LogRec) :
    (foldFAcc l).durations = l.filterMap (fun r => r.duration_ms) := by
  simp [foldFAcc, fold_durations, initFAcc]

theorem foldFAcc_events (l : List LogRec) :
    (foldFAcc l).events = (l.filterMap evOf).toFinset := by
  simp [foldFAcc, fold_events, initFAcc]

theorem foldFAcc_weak (l : List LogRec) :
    (foldFAcc l).weak_label_anomaly = weakDisj l := by
  unfold foldFAcc weakDisj
  rw [fold_weak, fold_5xx, fold_err]
  simp only [initFAcc, Bool.false_or, Nat.zero_add]
  cases l with
  | nil => simp
  | cons r t => simp

theorem perm_toFinset {α : Type} [DecidableEq α] {l₁ l₂ : List α} (h : l₁.Perm l₂) :
    l₁.toFinset = l₂.toFinset := by
  ext a
  simp [List.mem_toFinset, h.mem_iff]

theorem perm_any {α : Type} (p : α → Bool) {l₁ l₂ : List α} (h : l₁.Perm l₂) :
    l₁.any p = l₂.any p := by
  rw [Bool.eq_iff_iff]
  simp only [List.any_eq_true]
  constructor
  · rintro ⟨x, hx, hp⟩
    exact ⟨x, h.mem_iff.1 hx, hp⟩
  · rintro ⟨x, hx, hp⟩
    exact ⟨x, h.mem_iff.2 hx, hp⟩

theorem foldl_max_mem (t : List ℚ) : ∀ x : ℚ, t.foldl max x ∈ x :: t := by
  induction t with
  | nil => intro x; simp
  | cons y t ih =>
      intro x
      have := ih (max x y)
      rcases List.mem_cons.1 this with h | h
      · rcases max_choice x y with hm | hm <;> rw [List.foldl_cons, h, hm] <;> simp
      · simp [List.foldl_cons, List.mem_cons.2 (Or.inr (List.mem_cons.2 (Or.inr h)))]

theorem le_foldl_max (t : List ℚ) : ∀ x a : ℚ, a ∈ x :: t → a ≤ t.foldl max x := by
  induction t with
  | nil =>
      intro x a ha
      simp at ha
      simp [ha]
  | cons y t ih =>
      intro x a ha
      rw [List.foldl_cons]
      rcases List.mem_cons.1 ha with h | h
      · subst h
        exact le_trans (le_max_left a y) (ih _ _ (List.mem_cons_self _ _))
      · rcases List.mem_cons.1 h with h2 | h2
        · subst h2
          exact le_trans (le_max_right x a) (ih _ _ (List.mem_cons_self _ _))
        · exact ih _ _ (List.mem_cons_of_mem _ h2)

theorem listMax_mem {l : List ℚ} (h : l ≠ []) : listMax l ∈ l := by
  cases l with
  | nil => exact absurd rfl h
  | cons x t => exact foldl_max_mem t x

theorem le_listMax {l : List ℚ} {a : ℚ} (ha : a ∈ l) : a ≤ listMax l := by
  cases l with
  | nil => simp at ha
  | cons x t => exact le_foldl_max t x a ha

theorem listMax_perm {l₁ l₂ : List ℚ} (h : l₁.Perm l₂) : listMax l₁ = listMax l₂ := by
  cases hl : l₁ with
  | nil =>
      subst hl
      rw [← h.nil_eq]
  | cons x t =>
      subst hl
      have h2 : l₂ ≠ [] := by
        intro h0
        subst h0
        exact absurd h.eq_nil (by simp)
      exact le_antisymm
        (le_listMax (h.mem_iff.1 (listMax_mem (by simp))))
        (le_listMax (h.mem_iff.2 (listMax_mem h2)))

theorem sortQ_perm {l₁ l₂ : List ℚ} (h : l₁.Perm l₂) : sortQ l₁ = sortQ l₂ :=
  List.eq_of_perm_of_sorted
    (((l₁.perm_insertionSort _).trans h).trans (l₂.perm_insertionSort _).symm)
    (l₁.sorted_insertionSort _) (l₂.sorted_insertionSort _)

theorem percentile_perm {l₁ l₂ : List ℚ} (p : ℚ) (h : l₁.Perm l₂) :
    percentile l₁ p = percentile l₂ p := by
  by_cases h1 : l₁ = []
  · subst h1
    rw [← h.nil_eq]
  · have h2 : l₂ ≠ [] := by
      intro h0
      subst h0
      exact h1 h.eq_nil
    rw [percentile, percentile, if_neg h1, if_neg h2, sortQ_perm h, h.length_eq]

end WeakLabelAndPerm

section RoundingBounds

theorem rhe_nonneg {x : ℚ} (h : 0 ≤ x) : 0 ≤ rhe x := by
  have h0 : 0 ≤ ⌊x⌋ := Int.floor_nonneg.2 h
  unfold rhe
  dsimp only
  split_ifs <;> omega

theorem rhe_le {x : ℚ} {N : ℤ} (h : x ≤ (N : ℚ)) : rhe x ≤ N := by
  have hfl : ⌊x⌋ ≤ N := by
    have h1 : ⌊x⌋ ≤ ⌊(N : ℚ)⌋ := Int.floor_le_floor h
    simpa using h1
  have hx : (⌊x⌋ : ℚ) ≤ x := Int.floor_le x
  unfold rhe
  dsimp only
  split_ifs with h1 h2 h3
  · exact hfl
  · have hlt : (⌊x⌋ : ℚ) + 1 / 2 < (N : ℚ) := by linarith
    have : (⌊x⌋ : ℚ) < (N : ℚ) := by linarith
    have hfn : ⌊x⌋ < N := by exact_mod_cast this
    omega
  · exact hfl
  · have heq : x - (⌊x⌋ : ℚ) = 1 / 2 := le_antisymm (not_lt.1 h2) (not_lt.1 h1)
    have : (⌊x⌋ : ℚ) < (N : ℚ) := by linarith
    have hfn : ⌊x⌋ < N := by exact_mod_cast this
    omega

theorem round6_nonneg {x : ℚ} (h : 0 ≤ x) : 0 ≤ round6 x := by
  unfold round6
  have h1 : (0 : ℤ) ≤ rhe (x * 1000000) := rhe_nonneg (by positivity)
  have h2 : (0 : ℚ) ≤ (rhe (x * 1000000) : ℚ) := by exact_mod_cast h1
  positivity

theorem round6_le_one {x : ℚ} (h : x ≤ 1) : round6 x ≤ 1 := by
  unfold round6
  rw [div_le_one (by norm_num)]
  have h1 : rhe (x * 1000000) ≤ (1000000 : ℤ) := by
    apply rhe_le
    push_cast
    linarith
  exact_mod_cast h1

end RoundingBounds

/-- C5: the percentile estimator at p = 0.95 returns 0.0 on the empty
list, the sole element on every single-element list, 48 on
[10, 20, 30, 40, 50], and in general computes rank = (n-1) * 0.95 over the
sorted values, returning the element at the rank when the rank is
integral and otherwise linearly interpolating between the floor and
ceiling order statistics weighted by the fractional part. -/
theorem C5_percentile_spec :
    percentile [] (95 / 100) = 0
  ∧ (∀ x : ℚ, percentile [x] (95 / 100) = x)
  ∧ percentile [10, 20, 30, 40, 50] (95 / 100) = 48
  ∧ ∀ (x : ℚ) (t : List ℚ),
      percentile (x :: t) (95 / 100)
        = (if ((⌊(((x :: t).length : ℚ) - 1) * (95 / 100)⌋ : ℚ)
              = (((x :: t).length : ℚ) - 1) * (95 / 100)) then
            (sortQ (x :: t)).getD (⌊(((x :: t).length : ℚ) - 1) * (95 / 100)⌋).toNat 0
          else
            (sortQ (x :: t)).getD (⌊(((x :: t).length : ℚ) - 1) * (95 / 100)⌋).toNat 0
              + ((((x :: t).length : ℚ) - 1) * (95 / 100)
                  - (⌊(((x :: t).length : ℚ) - 1) * (95 / 100)⌋ : ℚ))
                * ((sortQ (x :: t)).getD (⌈(((x :: t).length : ℚ) - 1) * (95 / 100)⌉).toNat 0
                    - (sortQ (x :: t)).getD
                        (⌊(((x :: t).length : ℚ) - 1) * (95 / 100)⌋).toNat 0)) := by
  refine ⟨by decide, ?_, ?_, ?_⟩
  · intro x
    have h1 : ((([x] : List ℚ).length : ℚ) - 1) * (95 / 100) = 0 := by
      simp
    simp [percentile, h1, pyTrunc, sortQ, List.insertionSort]
  · have hs : sortQ [10, 20, 30, 40, 50] = [10, 20, 30, 40, 50] := by decide
    have hk : ((([10, 20, 30, 40, 50] : List ℚ).length : ℚ) - 1) * (95 / 100) = 19 / 5 := by
      norm_num
    have hf : ⌊(19 / 5 : ℚ)⌋ = 3 := by norm_num [Int.floor_eq_iff]
    have hc : ⌈(19 / 5 : ℚ)⌉ = 4 := by norm_num [Int.ceil_eq_iff]
    rw [percentile, if_neg (by simp)]
    simp only [hk, hs, hf, hc]
    have h3 : ([10, 20, 30, 40, 50] : List ℚ).getD (Int.toNat 3) 0 = 40 := rfl
    have h4 : ([10, 20, 30, 40, 50] : List ℚ).getD (Int.toNat 4) 0 = 50 := rfl
    rw [if_neg (by norm_num), h3, h4]
    norm_num
  · intro x t
    have hne : (x :: t) ≠ [] := by simp
    set K : ℚ := (((x :: t).length : ℚ) - 1) * (95 / 100) with hK
    have hK0 : 0 ≤ K := by
      rw [hK]
      have h1 : (1 : ℚ) ≤ ((x :: t).length : ℚ) := by
        have : 1 ≤ (x :: t).length := by simp
        exact_mod_cast this
      have h2 : (0 : ℚ) ≤ ((x :: t).length : ℚ) - 1 := by linarith
      positivity
    have hfl0 : 0 ≤ ⌊K⌋ := Int.floor_nonneg.2 hK0
    rw [percentile, if_neg hne]
    simp only [← hK]
    by_cases hfc : ⌊K⌋ = ⌈K⌉
    · have hiK : (⌊K⌋ : ℚ) = K := by
        have h1 : (⌊K⌋ : ℚ) ≤ K := Int.floor_le K
        have h2 : K ≤ (⌈K⌉ : ℚ) := Int.le_ceil K
        rw [← hfc] at h2
        linarith
      rw [if_pos hfc, if_pos hiK]
      have hpt : pyTrunc K = ⌊K⌋ := if_pos hK0
      rw [hpt]
    · have hiK : ¬((⌊K⌋ : ℚ) = K) := by
        intro h0
        apply hfc
        have hcc : ⌈K⌉ = ⌊K⌋ := by
          conv_lhs => rw [← h0]
          exact Int.ceil_intCast _
        exact hcc.symm
      rw [if_neg hfc, if_neg hiK]
      have hc1 : ⌈K⌉ = ⌊K⌋ + 1 := by
        have h1 : ⌊K⌋ ≤ ⌈K⌉ := Int.floor_le_ceil K
        have h2 : ⌈K⌉ ≤ ⌊K⌋ + 1 := Int.ceil_le_floor_add_one K
        omega
      rw [hc1]
      have hcast : ((⌊K⌋ + 1 : ℤ) : ℚ) = (⌊K⌋ : ℚ) + 1 := by push_cast; ring
      rw [hcast]
      ring

/-- C2 counterexample: a bucket holding one record with duration
12000 ≥ 10000 and no error level and no 5xx status. The claimed
disjunction is true (and the agent aggregation flag is true), but the
ml aggregation (`anomaly-ml/scripts/build_features.py` line 114) labels
the bucket false, because it omits the duration clause. -/
theorem C2_counterexample :
    mlWeakLabel [⟨none, some "x", none, some 12000⟩] = false
  ∧ weakDisj [⟨none, some "x", none, some 12000⟩] = true
  ∧ (foldFAcc [⟨none, some "x", none, some 12000⟩]).weak_label_anomaly = true := by
  refine ⟨by decide, by decide, by decide⟩

/-- C2 amended: in the agent implementation
(`anomaly-detection-agent/scripts/build_features.py`) the finalized
`weak_label_anomaly` flag equals the disjunction, over the fully
accumulated bucket, of: final `http_5xx` > 0, OR final
`error_level_count` > 0, OR some record has `duration_ms` ≥ 10000. The
ml implementation (`anomaly-ml/scripts/build_features.py`) instead
computes only the first two disjuncts, omitting the duration clause. -/
theorem C2_amended_weak_label (l : List LogRec) :
    (foldFAcc l).weak_label_anomaly = weakDisj l
  ∧ mlWeakLabel l
      = (decide (0 < l.countP mlIs5xx) || decide (0 < l.countP mlIsError)) :=
  ⟨foldFAcc_weak l, rfl⟩

/-- Round half to even of an integer value is that integer. -/
theorem rhe_intCast (n : ℤ) : rhe ((n : ℤ) : ℚ) = n := by
  unfold rhe
  dsimp only
  rw [Int.floor_intCast]
  norm_num

/-- C1 counterexample: a bucket with one `http.request.completed` record
of status 503 and a second record of status 500 whose event is not
`http.request.completed`. Then `http_5xx = 2` but `http_completed = 1`,
and the finalized `http_5xx_rate` is 2, outside `[0, 1]`. -/
theorem C1_counterexample :
    (finalizeFAcc (foldFAcc
        [⟨none, some "http.request.completed", some 503, none⟩,
         ⟨none, some "x", some 500, none⟩])).http_5xx_rate = 2
  ∧ ¬(finalizeFAcc (foldFAcc
        [⟨none, some "http.request.completed", some 503, none⟩,
         ⟨none, some "x", some 500, none⟩])).http_5xx_rate ≤ 1 := by
  have h5x : (foldFAcc
      [⟨none, some "http.request.completed", some 503, none⟩,
       ⟨none, some "x", some 500, none⟩]).http_5xx = 2 := by decide
  have hcp : (foldFAcc
      [⟨none, some "http.request.completed", some 503, none⟩,
       ⟨none, some "x", some 500, none⟩]).http_completed = 1 := by decide
  have hval : (finalizeFAcc (foldFAcc
      [⟨none, some "http.request.completed", some 503, none⟩,
       ⟨none, some "x", some 500, none⟩])).http_5xx_rate = 2 := by
    simp only [finalizeFAcc, h5x, hcp]
    rw [if_neg (by norm_num)]
    unfold round6
    have h2 : ((2 : ℕ) : ℚ) / ((1 : ℕ) : ℚ) * 1000000 = ((2000000 : ℤ) : ℚ) := by norm_num
    rw [h2, rhe_intCast]
    norm_num
  refine ⟨hval, ?_⟩
  rw [hval]
  norm_num

/-- C1 amended: `error_rate` always lies in `[0, 1]`;
`http_4xx_rate` and `http_5xx_rate` are always nonnegative, and lie in
`[0, 1]` under the additional hypothesis that every record of the bucket
with a 4xx (resp. 5xx) status has event `http.request.completed` — in
general they may exceed 1, because the numerators count records of any
event kind while the denominator counts only `http.request.completed`
events. -/
theorem C1_amended_rate_bounds (l : List LogRec) :
    (0 ≤ (finalizeFAcc (foldFAcc l)).error_rate
      ∧ (finalizeFAcc (foldFAcc l)).error_rate ≤ 1)
  ∧ 0 ≤ (finalizeFAcc (foldFAcc l)).http_4xx_rate
  ∧ 0 ≤ (finalizeFAcc (foldFAcc l)).http_5xx_rate
  ∧ ((∀ r ∈ l, is4xx r = true → isHttpCompleted r = true)
      → (finalizeFAcc (foldFAcc l)).http_4xx_rate ≤ 1)
  ∧ ((∀ r ∈ l, is5xx r = true → isHttpCompleted r = true)
      → (finalizeFAcc (foldFAcc l)).http_5xx_rate ≤ 1) := by
  have herr : (foldFAcc l).error_level_count = l.countP isErrorLevel := foldFAcc_err l
  have htot : (foldFAcc l).total_logs = l.length := foldFAcc_total l
  have h4 : (foldFAcc l).http_4xx = l.countP is4xx := foldFAcc_4xx l
  have h5 : (foldFAcc l).http_5xx = l.countP is5xx := foldFAcc_5xx l
  have hcomp : (foldFAcc l).http_completed = l.countP isHttpCompleted := foldFAcc_comp l
  simp only [finalizeFAcc, herr, htot, h4, h5, hcomp]
  refine ⟨⟨?_, ?_⟩, ?_, ?_, ?_, ?_⟩
  · apply round6_nonneg
    positivity
  · apply round6_le_one
    by_cases h0 : l.length = 0
    · have hc0 : l.countP isErrorLevel = 0 := by
        have := l.countP_le_length isErrorLevel
        omega
      rw [if_pos h0, hc0]
      norm_num
    · rw [if_neg h0]
      rw [div_le_one (by positivity)]
      have := l.countP_le_length isErrorLevel
      exact_mod_cast this
  · apply round6_nonneg
    split_ifs
    · norm_num
    · positivity
  · apply round6_nonneg
    split_ifs
    · norm_num
    · positivity
  · intro hmono
    apply round6_le_one
    by_cases h0 : l.countP isHttpCompleted = 0
    · rw [if_pos h0]
      norm_num
    · rw [if_neg h0]
      rw [div_le_one (by positivity)]
      have := List.countP_mono_left (l := l) (p := is4xx) (q := isHttpCompleted) hmono
      exact_mod_cast this
  · intro hmono
    apply round6_le_one
    by_cases h0 : l.countP isHttpCompleted = 0
    · rw [if_pos h0]
      norm_num
    · rw [if_neg h0]
      rw [div_le_one (by positivity)]
      have := List.countP_mono_left (l := l) (p := is5xx) (q := isHttpCompleted) hmono
      exact_mod_cast this

/-- C1 amended, witness: a concrete bucket whose only 5xx/4xx record is an
`http.request.completed` event; both rate hypotheses hold and both rates
are at most 1. -/
theorem C1_amended_rate_bounds_witness :
    (finalizeFAcc (foldFAcc
        [⟨some "ERROR", some "http.request.completed", some 503, none⟩])).http_4xx_rate ≤ 1
  ∧ (finalizeFAcc (foldFAcc
        [⟨some "ERROR", some "http.request.completed", some 503, none⟩])).http_5xx_rate ≤ 1 :=
  ⟨(C1_amended_rate_bounds
      [⟨some "ERROR", some "http.request.completed", some 503, none⟩]).2.2.2.1 (by decide),
   (C1_amended_rate_bounds
      [⟨some "ERROR", some "http.request.completed", some 503, none⟩]).2.2.2.2 (by decide)⟩

/-- The weak-label disjunction is invariant under permutation. -/
theorem weakDisj_perm {l₁ l₂ : List LogRec} (h : l₁.Perm l₂) :
    weakDisj l₁ = weakDisj l₂ := by
  unfold weakDisj
  rw [h.countP_eq is5xx, h.countP_eq isErrorLevel, perm_any isLongDuration h]

/-- C3: for every bucket, the finalized feature row — all numeric fields
including `total_logs`, `unique_events`, `error_level_count`,
`http_received`, `http_completed`, `status_present`, `duration_present`,
`http_4xx`, `http_5xx`, `duration_mean`, `duration_p95`, `duration_max`,
`error_rate`, `http_4xx_rate`, `http_5xx_rate` and `weak_label_anomaly` —
is identical under any permutation of the bucket's records. -/
theorem C3_perm_invariance (l₁ l₂ : List LogRec) (h : l₁.Perm l₂) :
    finalizeFAcc (foldFAcc l₁) = finalizeFAcc (foldFAcc l₂) := by
  have hdur : (l₁.filterMap (fun r => r.duration_ms)).Perm
      (l₂.filterMap (fun r => r.duration_ms)) := h.filterMap _
  have hdlen := hdur.length_eq
  have hdsum := hdur.sum_eq
  have hdnil : (l₁.filterMap (fun r => r.duration_ms) = [])
      ↔ (l₂.filterMap (fun r => r.duration_ms) = []) := by
    rw [← List.length_eq_zero, ← List.length_eq_zero, hdlen]
  have hmean : (if l₁.filterMap (fun r => r.duration_ms) = [] then (0 : ℚ)
      else (l₁.filterMap (fun r => r.duration_ms)).sum
        / ((l₁.filterMap (fun r => r.duration_ms)).length : ℚ))
      = (if l₂.filterMap (fun r => r.duration_ms) = [] then (0 : ℚ)
      else (l₂.filterMap (fun r => r.duration_ms)).sum
        / ((l₂.filterMap (fun r => r.duration_ms)).length : ℚ)) := by
    by_cases h0 : l₁.filterMap (fun r => r.duration_ms) = []
    · rw [if_pos h0, if_pos (hdnil.1 h0)]
    · rw [if_neg h0, if_neg (fun hx => h0 (hdnil.2 hx)), hdsum, hdlen]
  have hp95 : (if l₁.filterMap (fun r => r.duration_ms) = [] then (0 : ℚ)
      else percentile (l₁.filterMap (fun r => r.duration_ms)) (95 / 100))
      = (if l₂.filterMap (fun r => r.duration_ms) = [] then (0 : ℚ)
      else percentile (l₂.filterMap (fun r => r.duration_ms)) (95 / 100)) := by
    by_cases h0 : l₁.filterMap (fun r => r.duration_ms) = []
    · rw [if_pos h0, if_pos (hdnil.1 h0)]
    · rw [if_neg h0, if_neg (fun hx => h0 (hdnil.2 hx)), percentile_perm _ hdur]
  have hmax : (if l₁.filterMap (fun r => r.duration_ms) = [] then (0 : ℚ)
      else listMax (l₁.filterMap (fun r => r.duration_ms)))
      = (if l₂.filterMap (fun r => r.duration_ms) = [] then (0 : ℚ)
      else listMax (l₂.filterMap (fun r => r.duration_ms))) := by
    by_cases h0 : l₁.filterMap (fun r => r.duration_ms) = []
    · rw [if_pos h0, if_pos (hdnil.1 h0)]
    · rw [if_neg h0, if_neg (fun hx => h0 (hdnil.2 hx)), listMax_perm hdur]
  have hev : (l₁.filterMap evOf).toFinset = (l₂.filterMap evOf).toFinset :=
    perm_toFinset (h.filterMap evOf)
  simp only [finalizeFAcc, foldFAcc_total, foldFAcc_err, foldFAcc_recv, foldFAcc_comp,
    foldFAcc_status, foldFAcc_durpres, foldFAcc_4xx, foldFAcc_5xx, foldFAcc_durations,
    foldFAcc_events, foldFAcc_weak, FeatureRow.mk.injEq]
  refine ⟨h.length_eq, by rw [hev], h.countP_eq isErrorLevel, h.countP_eq isHttpReceived,
    h.countP_eq isHttpCompleted, h.countP_eq (fun r => r.status_code.isSome),
    h.countP_eq (fun r => r.duration_ms.isSome), h.countP_eq is4xx, h.countP_eq is5xx,
    by rw [hmean], by rw [hp95], by rw [hmax],
    by rw [h.countP_eq isErrorLevel, h.length_eq],
    by rw [h.countP_eq is4xx, h.countP_eq isHttpCompleted],
    by rw [h.countP_eq is5xx, h.countP_eq isHttpCompleted],
    weakDisj_perm h⟩

/-- C3 witness: a concrete two-record bucket and its transposition
produce the same finalized feature row. -/
theorem C3_perm_invariance_witness :
    finalizeFAcc (foldFAcc
      [⟨some "ERROR", some "http.request.completed", some 503, some 12000⟩,
       ⟨some "INFO", some "http.request.received", none, some 5⟩])
    = finalizeFAcc (foldFAcc
      [⟨some "INFO", some "http.request.received", none, some 5⟩,
       ⟨some "ERROR", some "http.request.completed", some 503, some 12000⟩]) :=
  C3_perm_invariance _ _
    (List.Perm.swap
      (⟨some "INFO", some "http.request.received", none, some 5⟩ : LogRec)
      (⟨some "ERROR", some "http.request.completed", some 503, some 12000⟩ : LogRec) [])

/-- A truthy value is in particular non-null. -/
theorem truthy_ne_null {x : J} (h : pyTruthy x = true) : x ≠ J.null := by
  intro h0
  rw [h0] at h
  simp [pyTruthy] at h

/-- C4: the per-line loop is not exception-safe. In `convert_logs.py`, a
JSON object line whose `stack` field is a truthy non-string
(`\x7b"stack": 123\x7d`) makes `hash_stack` call `.encode` on an `int`,
raising `AttributeError` outside any try/except, which aborts the batch.
In `convert_all.py`, a node-style line whose `data=` segment decodes to a
truthy non-dict JSON value (`data=5`) makes `data_obj.get` raise
`AttributeError` out of `parse_any`. -/
theorem C4_per_line_exception :
    convertLogsLine (some (J.obj [("stack", J.num 123)])) J.null
      = Except.error PyErr.attributeError
  ∧ parse_any "svc=a | event=x | data=5" "d" = Except.error PyErr.attributeError :=
  ⟨rfl, rfl⟩

/-- C7 counterexample: `convert_logs.py` applies no validity filter. The
JSON object line `\x7b\x7d` normalizes to an all-null record that
violates the validity predicate (its `timestamp` is null), yet the main
loop writes it. -/
theorem C7_counterexample :
    convertLogsLine (some (J.obj [])) J.null
      = Except.ok (LineOutcome.writtenRec
          [("timestamp", J.null), ("service", J.null), ("level", J.null), ("event", J.null),
           ("request_id", J.null), ("session_id", J.null), ("method", J.null),
           ("path", J.null), ("status_code", J.null), ("duration_ms", J.null),
           ("error_message", J.null), ("error_type", J.null), ("stacktrace_hash", J.null)])
  ∧ alGet
      [(("timestamp" : String), J.null), ("service", J.null), ("level", J.null),
       ("event", J.null), ("request_id", J.null), ("session_id", J.null), ("method", J.null),
       ("path", J.null), ("status_code", J.null), ("duration_ms", J.null),
       ("error_message", J.null), ("error_type", J.null), ("stacktrace_hash", J.null)]
      "timestamp" = J.null :=
  ⟨rfl, rfl⟩

/-- C7 amended: in the `convert_all.py` pipeline, every retained record
satisfies the validity predicate (`timestamp` non-null, `service`
non-null, and one of `event`/`level`/`error_message` non-null), and every
parsed record failing the predicate is dropped. The `convert_logs.py`
pipeline applies no validity filter. -/
theorem C7_amended_validity :
    (∀ (line sd : String) (r : List (String × J)),
        convertAllLine line sd = Except.ok (some r)
        → alGet r "timestamp" ≠ J.null ∧ alGet r "service" ≠ J.null
          ∧ (alGet r "event" ≠ J.null ∨ alGet r "level" ≠ J.null
              ∨ alGet r "error_message" ≠ J.null))
  ∧ (∀ (line sd : String) (r : List (String × J)),
        parse_any line sd = Except.ok (some r)
        → ¬(alGet r "timestamp" ≠ J.null ∧ alGet r "service" ≠ J.null
            ∧ (alGet r "event" ≠ J.null ∨ alGet r "level" ≠ J.null
                ∨ alGet r "error_message" ≠ J.null))
        → convertAllLine line sd = Except.ok none) := by
  have hval : ∀ obj : List (String × J), is_valid obj = true
      → pyTruthy (alGet obj "timestamp") = true
        ∧ pyTruthy (alGet obj "service") = true
        ∧ (pyTruthy (alGet obj "event") = true ∨ pyTruthy (alGet obj "level") = true
            ∨ pyTruthy (alGet obj "error_message") = true) := by
    intro obj hv
    unfold is_valid at hv
    split_ifs at hv with h1 h2 h3
    refine ⟨h1, h2, ?_⟩
    rcases not_and_or.1 h3 with h4 | h4
    · rw [not_not] at h4
      exact Or.inl h4
    · rcases not_and_or.1 h4 with h5 | h5
      · rw [not_not] at h5
        exact Or.inr (Or.inl h5)
      · rw [not_not] at h5
        exact Or.inr (Or.inr h5)
  have hinv : ∀ obj : List (String × J),
      ¬(alGet obj "timestamp" ≠ J.null ∧ alGet obj "service" ≠ J.null
        ∧ (alGet obj "event" ≠ J.null ∨ alGet obj "level" ≠ J.null
            ∨ alGet obj "error_message" ≠ J.null))
      → is_valid obj = false := by
    intro obj hnot
    by_cases hv : is_valid obj = true
    · exfalso
      apply hnot
      obtain ⟨h1, h2, h3⟩ := hval obj hv
      refine ⟨truthy_ne_null h1, truthy_ne_null h2, ?_⟩
      rcases h3 with h | h | h
      · exact Or.inl (truthy_ne_null h)
      · exact Or.inr (Or.inl (truthy_ne_null h))
      · exact Or.inr (Or.inr (truthy_ne_null h))
    · exact Bool.not_eq_true _ ▸ Bool.eq_false_iff.2 (fun hx => hv hx)
  constructor
  · intro line sd r h
    unfold convertAllLine at h
    cases hp : parse_any line sd with
    | error e => rw [hp] at h; exact absurd h (by simp)
    | ok o =>
        rw [hp] at h
        cases o with
        | none => exact absurd h (by simp)
        | some obj =>
            dsimp only at h
            by_cases hv : is_valid obj = true
            · rw [if_pos hv] at h
              simp only [Except.ok.injEq, Option.some.injEq] at h
              subst h
              obtain ⟨h1, h2, h3⟩ := hval obj hv
              refine ⟨truthy_ne_null h1, truthy_ne_null h2, ?_⟩
              rcases h3 with h | h | h
              · exact Or.inl (truthy_ne_null h)
              · exact Or.inr (Or.inl (truthy_ne_null h))
              · exact Or.inr (Or.inr (truthy_ne_null h))
            · rw [if_neg hv] at h
              exact absurd h (by simp)
  · intro line sd r hp hnot
    unfold convertAllLine
    rw [hp]
    dsimp only
    rw [if_neg]
    rw [hinv r hnot]
    simp

/-- C7 amended, witness: a spring-style line is retained and satisfies
the predicate; a JSON line carrying only a timestamp fails the predicate
and is dropped. -/
theorem C7_amended_validity_witness :
    (alGet
        [(("timestamp" : String), J.str "2025-12-27T12:03:41.029"),
         ("service", J.str "users-service"), ("level", J.str "INFO"),
         ("event", J.str "app.log"), ("request_id", J.null), ("session_id", J.null),
         ("method", J.null), ("path", J.null), ("status_code", J.null),
         ("duration_ms", J.null), ("error_message", J.str "Started"),
         ("error_type", J.null), ("stacktrace_hash", J.null)] "timestamp" ≠ J.null
      ∧ alGet
        [(("timestamp" : String), J.str "2025-12-27T12:03:41.029"),
         ("service", J.str "users-service"), ("level", J.str "INFO"),
         ("event", J.str "app.log"), ("request_id", J.null), ("session_id", J.null),
         ("method", J.null), ("path", J.null), ("status_code", J.null),
         ("duration_ms", J.null), ("error_message", J.str "Started"),
         ("error_type", J.null), ("stacktrace_hash", J.null)] "service" ≠ J.null
      ∧ (alGet
        [(("timestamp" : String), J.str "2025-12-27T12:03:41.029"),
         ("service", J.str "users-service"), ("level", J.str "INFO"),
         ("event", J.str "app.log"), ("request_id", J.null), ("session_id", J.null),
         ("method", J.null), ("path", J.null), ("status_code", J.null),
         ("duration_ms", J.null), ("error_message", J.str "Started"),
         ("error_type", J.null), ("stacktrace_hash", J.null)] "event" ≠ J.null
        ∨ alGet
        [(("timestamp" : String), J.str "2025-12-27T12:03:41.029"),
         ("service", J.str "users-service"), ("level", J.str "INFO"),
         ("event", J.str "app.log"), ("request_id", J.null), ("session_id", J.null),
         ("method", J.null), ("path", J.null), ("status_code", J.null),
         ("duration_ms", J.null), ("error_message", J.str "Started"),
         ("error_type", J.null), ("stacktrace_hash", J.null)] "level" ≠ J.null
        ∨ alGet
        [(("timestamp" : String), J.str "2025-12-27T12:03:41.029"),
         ("service", J.str "users-service"), ("level", J.str "INFO"),
         ("event", J.str "app.log"), ("request_id", J.null), ("session_id", J.null),
         ("method", J.null), ("path", J.null), ("status_code", J.null),
         ("duration_ms", J.null), ("error_message", J.str "Started"),
         ("error_type", J.null), ("stacktrace_hash", J.null)] "error_message" ≠ J.null))
  ∧ convertAllLine "\x7b\"ts\":\"T1\"\x7d" "d" = Except.ok none :=
  ⟨C7_amended_validity.1
      "2025-12-27 12:03:41.029 INFO  [users-service] [main] com.x.Y - Started" "d"
      _ rfl,
   C7_amended_validity.2 "\x7b\"ts\":\"T1\"\x7d" "d"
      [(("timestamp" : String), J.str "T1"), ("service", J.str "d"), ("level", J.null),
       ("event", J.null), ("request_id", J.null), ("session_id", J.null),
       ("method", J.null), ("path", J.null), ("status_code", J.null),
       ("duration_ms", J.null), ("error_message", J.null), ("error_type", J.null),
       ("stacktrace_hash", J.null)] rfl
      (by rintro ⟨-, -, h | h | h⟩ <;> exact h rfl)⟩

/-- Key set of every `normalize_base` projection. -/
theorem normalize_base_keys (o : List (String × J)) :
    alKeys (normalize_base o) = SCHEMA_KEYS := rfl

/-- Every successful `node_out` construction carries exactly the schema
keys. -/
theorem node_out_keys (base : List (String × String)) (dobj : J) (sd : String)
    (r : List (String × J)) (h : node_out base dobj sd = Except.ok r) :
    alKeys r = SCHEMA_KEYS := by
  unfold node_out at h
  cases dobj with
  | obj l =>
      simp only [jGet] at h
      cases h
      rfl
  | null => simp [jGet] at h
  | bool b => simp [jGet] at h
  | num q => simp [jGet] at h
  | str s => simp [jGet] at h
  | arr a => simp [jGet] at h

/-- Every successful node-style parse carries exactly the schema keys. -/
theorem node_style_keys (line sd : String) (r : List (String × J))
    (h : parse_node_style line sd = Except.ok r) : alKeys r = SCHEMA_KEYS := by
  unfold parse_node_style at h
  exact node_out_keys _ _ _ _ h

/-- Every successful delivery-style parse carries exactly the schema
keys. -/
theorem delivery_style_keys (line sd : String) (r : List (String × J))
    (h : parse_delivery_style line sd = some r) : alKeys r = SCHEMA_KEYS := by
  unfold parse_delivery_style at h
  split at h
  · cases h
  · cases h
    rfl

/-- Every successful spring-style parse carries exactly the schema
keys. -/
theorem spring_style_keys (line sd : String) (r : List (String × J))
    (h : parse_spring_style line sd = some r) : alKeys r = SCHEMA_KEYS := by
  unfold parse_spring_style at h
  split at h
  · cases h
  · cases h
    rfl

/-- Keys of the `ensureKeys` completion when every schema key is already
present. -/
theorem ensureKeys_full : ∀ (ks : List String) (n : List (String × J)),
    (∀ k ∈ ks, (n.map Prod.fst).contains k = true) → ks.foldl
      (fun n k => if (n.map Prod.fst).contains k then n else n ++ [(k, J.null)]) n = n := by
  intro ks
  induction ks with
  | nil => intro n _; rfl
  | cons k t ih =>
      intro n h
      rw [List.foldl_cons, if_pos (h k (List.mem_cons_self k t))]
      exact ih n (fun k2 hk2 => h k2 (List.mem_cons_of_mem k hk2))

/-- `ensureKeys` is the identity on a record that already carries the
full schema key list. -/
theorem ensureKeys_keys (n : List (String × J)) (h : alKeys n = SCHEMA_KEYS) :
    ensureKeys n = n := by
  unfold ensureKeys
  apply ensureKeys_full
  intro k hk
  unfold alKeys at h
  rw [h]
  exact List.elem_iff.2 hk

/-- Every success of the non-JSON fallthrough carries the schema keys. -/
theorem parse_any_rest_keys (line sd : String) (r : List (String × J))
    (h : parse_any_rest line sd = Except.ok (some r)) : alKeys r = SCHEMA_KEYS := by
  unfold parse_any_rest at h
  split at h
  · cases hn : parse_node_style line sd with
    | error e => rw [hn] at h; cases h
    | ok v =>
        rw [hn] at h
        simp only [Except.map, Except.ok.injEq, Option.some.injEq] at h
        subst h
        exact node_style_keys _ _ _ hn
  · split at h
    · injection h with h2
      exact delivery_style_keys _ _ _ h2
    · injection h with h2
      exact spring_style_keys _ _ _ h2

/-- C6: every canonical record produced by any accepted input — by
`normalize_log` in the agent pipeline, or by any of the four matchers
behind `parse_any` in the ml pipeline — carries exactly the 13 schema
keys, no key missing and none extra. -/
theorem except_map_ok {s a b : Type} {f : a → b} {x : Except s a} {r : b}
    (h : Except.map f x = Except.ok r) : ∃ v, x = Except.ok v ∧ r = f v := by
  cases x with
  | error e => cases h
  | ok v =>
      simp only [Except.map, Except.ok.injEq] at h
      exact ⟨v, rfl, h.symm⟩

/-- Keys of the assembled `normalize_log` record. -/
theorem normalize_log_fields_keys (ts sv lv ev rid sid mth pth sc dm em et hs : J) :
    alKeys (normalize_log_fields ts sv lv ev rid sid mth pth sc dm em et hs)
      = SCHEMA_KEYS := by
  unfold normalize_log_fields
  rw [ensureKeys_keys]
  · rfl
  · rfl

set_option maxHeartbeats 4000000 in
/-- C6: every canonical record produced by any accepted input — by
`normalize_log` in the agent pipeline, or by any of the four matchers
behind `parse_any` in the ml pipeline — carries exactly the 13 schema
keys, no key missing and none extra. -/
theorem C6_schema_keys :
    (∀ (obj : List (String × J)) (f : J) (r : List (String × J)),
        normalize_log obj f = Except.ok r → alKeys r = SCHEMA_KEYS)
  ∧ (∀ (line sd : String) (r : List (String × J)),
        parse_any line sd = Except.ok (some r) → alKeys r = SCHEMA_KEYS) := by
  constructor
  · intro obj f r h
    simp only [normalize_log] at h
    obtain ⟨hs, -, hr⟩ := except_map_ok h
    rw [hr]
    apply normalize_log_fields_keys
  · intro line sd r h
    unfold parse_any at h
    generalize rstripNl line = l1 at h
    generalize pyStrip l1 = s at h
    split at h
    · cases h
    · split at h
      · rename_i out hout
        injection h with h2
        injection h2 with h2a
        subst h2a
        split at hout
        · split at hout
          · injection hout with h3
            subst h3
            rfl
          · cases hout
        · cases hout
      · exact parse_any_rest_keys _ _ _ h

/-- C6 witness: the empty JSON object line normalizes (in both
pipelines) to a record with exactly the schema keys. -/
theorem C6_schema_keys_witness :
    alKeys
      [(("timestamp" : String), J.null), ("service", J.null), ("level", J.null),
       ("event", J.null), ("request_id", J.null), ("session_id", J.null),
       ("method", J.null), ("path", J.null), ("status_code", J.null),
       ("duration_ms", J.null), ("error_message", J.null), ("error_type", J.null),
       ("stacktrace_hash", J.null)] = SCHEMA_KEYS :=
  C6_schema_keys.1 [] J.null _ rfl

/-- `to_iso` on a string argument, unfolded: Python `str()` of a string
is the string itself, so `to_iso` strips it and applies the four rules
to the stripped character list. -/
theorem to_iso_str (s : String) :
    to_iso (J.str s) =
      (if (stripChars s.data).contains 'T' then J.str (String.mk (stripChars s.data))
       else
         match strptime_frac (stripChars s.data) with
         | some dt => J.str (isoformat dt)
         | none =>
             match strptime_sec (stripChars s.data) with
             | some dt => J.str (isoformat dt)
             | none => J.str (String.mk (stripChars s.data))) := by
  have hp : pyStr (J.str s) = s := by simp [pyStr]
  simp only [to_iso, hp]

/-- C8 counterexample: `to_iso` strips its input before every rule, so a
string that parses under neither format is returned STRIPPED, not
unchanged as claimed by rules (a) and (d): `" x "` comes back as
`"x"`. -/
theorem C8_counterexample :
    to_iso (J.str " x ") = J.str "x" ∧ to_iso (J.str " x ") ≠ J.str " x " := by
  have h : to_iso (J.str " x ") = J.str "x" := by
    rw [to_iso_str]
    rfl
  refine ⟨h, ?_⟩
  rw [h]
  intro hc
  injection hc with h2
  exact absurd h2 (by decide)

/-- C8 (amended): the timestamp normalizer first applies `str()` and
`strip()`; on the STRIPPED text it then applies the four rules in order
— pass a `T`-containing text through, else try the fractional format,
else the whole-second format, else pass the stripped text through — and
it is a total function (never raises). -/
theorem C8_to_iso_rules (s : String) :
    ((stripChars s.data).contains 'T' = true →
        to_iso (J.str s) = J.str (String.mk (stripChars s.data)))
  ∧ (∀ dt, (stripChars s.data).contains 'T' = false →
        strptime_frac (stripChars s.data) = some dt →
        to_iso (J.str s) = J.str (isoformat dt))
  ∧ (∀ dt, (stripChars s.data).contains 'T' = false →
        strptime_frac (stripChars s.data) = none →
        strptime_sec (stripChars s.data) = some dt →
        to_iso (J.str s) = J.str (isoformat dt))
  ∧ ((stripChars s.data).contains 'T' = false →
        strptime_frac (stripChars s.data) = none →
        strptime_sec (stripChars s.data) = none →
        to_iso (J.str s) = J.str (String.mk (stripChars s.data))) := by
  refine ⟨?_, ?_, ?_, ?_⟩
  · intro hT
    rw [to_iso_str, if_pos hT]
  · intro dt hT hf
    rw [to_iso_str, if_neg (by rw [hT]; decide), hf]
  · intro dt hT hf hs2
    rw [to_iso_str, if_neg (by rw [hT]; decide), hf, hs2]
  · intro hT hf hs2
    rw [to_iso_str, if_neg (by rw [hT]; decide), hf, hs2]

/-- C8 witness: the fractional format normalizes
`"2025-12-27 12:03:41.029"` to its ISO rendering with a six-digit
microsecond field. -/
theorem C8_to_iso_rules_witness :
    to_iso (J.str "2025-12-27 12:03:41.029") = J.str "2025-12-27T12:03:41.029000" :=
  (C8_to_iso_rules "2025-12-27 12:03:41.029").2.1 ⟨2025, 12, 27, 12, 3, 41, 29000⟩ rfl rfl

/-- A successful `subIdx` index really is an occurrence: the pattern is a
prefix of the haystack dropped to that index. -/
theorem subIdx_isPrefix {hay pat : List Char} {n : ℕ}
    (h : subIdx hay pat = some n) : pat.isPrefixOf (hay.drop n) = true := by
  unfold subIdx at h
  exact @List.find?_some ℕ (fun i => pat.isPrefixOf (List.drop i hay)) n
    (List.range (hay.length + 1)) h

/-- When the pattern is a prefix of the haystack, `subIdx` finds index
0 (Python `str.index` returns the leftmost occurrence). -/
theorem subIdx_self {hay pat : List Char} (h : pat.isPrefixOf hay = true) :
    subIdx hay pat = some 0 := by
  unfold subIdx
  rw [List.range_succ_eq_map, List.find?_cons]
  simp [h]

/-- Truncation half of C9: the delivery matcher only sees the line from
the first occurrence of `DELIVERY|` on, so dropping the prefix before
that occurrence does not change its output. -/
theorem parse_delivery_trunc (line sd : String) (n : ℕ)
    (h : subIdx line.data "DELIVERY|".data = some n) :
    parse_delivery_style line sd
      = parse_delivery_style (String.mk (line.data.drop n)) sd := by
  have hpre := subIdx_isPrefix h
  have h0 : subIdx (line.data.drop n) "DELIVERY|".data = some 0 := subIdx_self hpre
  unfold parse_delivery_style
  rw [show (String.mk (line.data.drop n)).data = line.data.drop n from rfl]
  simp only [containsSub, h, h0, Option.isSome_some, not_true, if_false,
    Option.getD_some, List.drop_zero]

/-- Sentinel half of C9: a pipe segment whose stripped text is the bare
word `DELIVERY` sets the service to the fixed sentinel
`delivery-service` and changes nothing else. -/
theorem deliveryStep_sentinel (st : DeliveryState) (seg : List Char)
    (h : stripChars seg = "DELIVERY".data) :
    deliveryStep st seg = { st with service := J.str "delivery-service" } := by
  unfold deliveryStep
  rw [h]
  dsimp only
  rw [if_pos rfl]

/-- The last index of `c` in `sub ++ trail` is the last position of
`sub` when `sub` ends in `c` and `trail` avoids `c`. -/
theorem lastIdxOf_append (sub trail : List Char) (c : Char)
    (hg : sub.getLast? = some c) (hc : ∀ x ∈ trail, (x == c) = false) :
    lastIdxOf (sub ++ trail) c = some (sub.length - 1) := by
  have h2 : sub.reverse.head? = some c := by rw [List.head?_reverse]; exact hg
  obtain ⟨t, ht⟩ : ∃ t, sub.reverse = c :: t := by
    cases hr : sub.reverse with
    | nil => rw [hr] at h2; cases h2
    | cons a t =>
        rw [hr] at h2
        injection h2 with h3
        exact ⟨t, by rw [h3]⟩
  have hfind : (sub ++ trail).reverse.findIdx? (fun x => x == c)
      = some trail.length := by
    rw [List.reverse_append, List.findIdx?_append]
    have h1 : trail.reverse.findIdx? (fun x => x == c) = none :=
      List.findIdx?_eq_none_iff.2 (fun x hx => hc x (List.mem_reverse.1 hx))
    rw [h1, ht, List.findIdx?_cons, if_pos (by simp)]
    simp [Option.or]
  have hlen : 1 ≤ sub.length := by
    cases sub with
    | nil => cases hg
    | cons a t2 => simp
  unfold lastIdxOf
  rw [hfind]
  simp only [Option.some.injEq, List.length_append]
  omega

/-- Greedy-extraction half of C9, corrected: the regex `(\x7b.*\x7d)` takes
everything from the first opening brace through the LAST closing brace;
the claim's "first balanced region" reading only holds when no further
`\x7d` follows, which is the hypothesis here. -/
theorem braceExtract_append (sub trail : List Char)
    (hh : sub.head? = some (Char.ofNat 123))
    (hg : sub.getLast? = some (Char.ofNat 125))
    (hc : ∀ x ∈ trail, (x == Char.ofNat 125) = false) :
    braceExtract (String.mk (sub ++ trail)) = some (String.mk sub) := by
  obtain ⟨t0, ht0⟩ : ∃ t0, sub = Char.ofNat 123 :: t0 := by
    cases hr : sub with
    | nil => rw [hr] at hh; cases hh
    | cons a t2 =>
        rw [hr] at hh
        injection hh with h3
        exact ⟨t2, by rw [h3]⟩
  have hlen2 : 2 ≤ sub.length := by
    cases ht : t0 with
    | nil =>
        rw [ht] at ht0
        rw [ht0] at hg
        have hchar : Char.ofNat 123 = Char.ofNat 125 := by simpa using hg
        exact absurd hchar (by decide)
    | cons b t2 =>
        rw [ht] at ht0
        rw [ht0]
        simp only [List.length_cons]
        omega
  have hlast : lastIdxOf (sub ++ trail) (Char.ofNat 125) = some (sub.length - 1) :=
    lastIdxOf_append sub trail _ hg hc
  have hfirst : (sub ++ trail).findIdx? (fun x => x == Char.ofNat 123) = some 0 := by
    rw [ht0, List.cons_append, List.findIdx?_cons, if_pos (by simp)]
  unfold braceExtract
  rw [show (String.mk (sub ++ trail)).data = sub ++ trail from rfl]
  dsimp only
  rw [hlast, hfirst]
  dsimp only
  rw [if_pos (by omega)]
  rw [List.drop_zero]
  have htake : sub.length - 1 - 0 + 1 = sub.length := by omega
  rw [htake, List.take_left]

/-- C9 counterexample: with trailing text containing a `\x7d`, the regex
does NOT stop at the first balanced region: on the ctx value
`\x7b"requestId":"abc"\x7d x\x7d` it captures through the final brace, the
JSON decode of that capture fails, and the delivery record's
`request_id` comes out null instead of `"abc"`. -/
theorem C9_counterexample :
    braceExtract "\x7b\"requestId\":\"abc\"\x7d x\x7d"
        = some "\x7b\"requestId\":\"abc\"\x7d x\x7d"
  ∧ braceExtract "\x7b\"requestId\":\"abc\"\x7d x\x7d"
        ≠ some "\x7b\"requestId\":\"abc\"\x7d"
  ∧ Option.map (fun r => alGet r "request_id")
      (parse_delivery_style "DELIVERY|ctx=\x7b\"requestId\":\"abc\"\x7d x\x7d" "svc")
      = some J.null := by
  refine ⟨rfl, ?_, rfl⟩
  intro hcon
  injection hcon with h2
  exact absurd h2 (by decide)

/-- C9 (amended): the delivery matcher's behaviour, with the regex
extraction corrected from "first balanced region" to "first opening
brace through LAST closing brace": (1) the line is truncated to start at
the first `DELIVERY|` occurrence; (2) a bare `DELIVERY` segment sets the
service to the sentinel `delivery-service`; (3) the brace extraction
returns exactly the leading braced region only when no `\x7d` occurs in
the trailing text. -/
theorem C9_amended_delivery :
    (∀ (line sd : String) (n : ℕ),
        subIdx line.data "DELIVERY|".data = some n →
        parse_delivery_style line sd
          = parse_delivery_style (String.mk (line.data.drop n)) sd)
  ∧ (∀ (st : DeliveryState) (seg : List Char),
        stripChars seg = "DELIVERY".data →
        deliveryStep st seg = { st with service := J.str "delivery-service" })
  ∧ (∀ (sub trail : List Char),
        sub.head? = some (Char.ofNat 123) →
        sub.getLast? = some (Char.ofNat 125) →
        (∀ x ∈ trail, (x == Char.ofNat 125) = false) →
        braceExtract (String.mk (sub ++ trail)) = some (String.mk sub)) :=
  ⟨parse_delivery_trunc, deliveryStep_sentinel, braceExtract_append⟩

/-- C9 witness: truncation on a concrete prefixed line, and greedy
extraction on a concrete braced value with brace-free trailing text. -/
theorem C9_amended_delivery_witness :
    parse_delivery_style "xx DELIVERY|ev=go" "d"
        = parse_delivery_style (String.mk ("xx DELIVERY|ev=go".data.drop 3)) "d"
  ∧ braceExtract (String.mk ("\x7bab\x7d".data ++ "cd".data))
        = some (String.mk "\x7bab\x7d".data) :=
  ⟨C9_amended_delivery.1 "xx DELIVERY|ev=go" "d" 3 rfl,
   C9_amended_delivery.2.2 "\x7bab\x7d".data "cd".data rfl rfl (by decide)⟩

/-- `Char.ofNat` below the surrogate range round-trips through
`Char.toNat`. -/
theorem charOfNatToNat (n : ℕ) (h : n < 55296) : (Char.ofNat n).toNat = n := by
  simp [Char.ofNat, Char.toNat, Nat.isValidChar, h, Char.ofNatAux, UInt32.toNat,
    BitVec.toNat_ofNatLt]

/-- ASCII upper-casing is idempotent. -/
theorem upChar_idem (c : Char) : upChar (upChar c) = upChar c := by
  unfold upChar
  by_cases h : 97 ≤ c.toNat ∧ c.toNat ≤ 122
  · rw [if_pos h]
    have ht : (Char.ofNat (c.toNat - 32)).toNat = c.toNat - 32 :=
      charOfNatToNat _ (by omega)
    rw [if_neg (by rw [ht]; omega)]
  · rw [if_neg h, if_neg h]

/-- `str.upper()` is idempotent. -/
theorem pyUpper_idem (s : String) : pyUpper (pyUpper s) = pyUpper s := by
  unfold pyUpper
  rw [show (String.mk (s.data.map upChar)).data = s.data.map upChar from rfl]
  rw [List.map_map]
  exact congrArg String.mk (List.map_congr_left (fun a _ => upChar_idem a))

/-- Python `str()` of a string is the string itself. -/
theorem pyStr_str (s : String) : pyStr (J.str s) = s := by simp [pyStr]

/-- `dropWhile` is the identity when no element satisfies the
predicate. -/
theorem dropWhile_all_false {α : Type} (p : α → Bool) (l : List α)
    (h : ∀ c ∈ l, p c = false) : l.dropWhile p = l := by
  cases l with
  | nil => rfl
  | cons a t =>
      rw [List.dropWhile_cons, h a (List.mem_cons_self a t)]
      simp

/-- The head of a `dropWhile` result does not satisfy the predicate. -/
theorem head_dropWhile_false {α : Type} (p : α → Bool) :
    ∀ (l : List α) (c : α), (l.dropWhile p).head? = some c → p c = false := by
  intro l
  induction l with
  | nil => intro c hc; cases hc
  | cons a t ih =>
      intro c hc
      rw [List.dropWhile_cons] at hc
      by_cases hp : p a = true
      · rw [if_pos hp] at hc
        exact ih c hc
      · rw [if_neg hp] at hc
        injection hc with h2
        subst h2
        simpa using hp

/-- `dropWhile` is the identity when the head (if any) fails the
predicate. -/
theorem dropWhile_self_of_head {α : Type} (p : α → Bool) (l : List α)
    (h : ∀ c, l.head? = some c → p c = false) : l.dropWhile p = l := by
  cases l with
  | nil => rfl
  | cons a t =>
      rw [List.dropWhile_cons, h a rfl]
      simp

/-- Python `str.strip()` is idempotent (on character lists). -/
theorem strip_idem (l : List Char) : stripChars (stripChars l) = stripChars l := by
  have hA : (stripChars l).dropWhile isPySpace = stripChars l := by
    apply dropWhile_self_of_head
    intro c hc
    have hpre : stripChars l <+: l.dropWhile isPySpace := by
      have hsuf := List.dropWhile_suffix (l := (l.dropWhile isPySpace).reverse) isPySpace
      have h2 := List.reverse_prefix.2 hsuf
      rwa [List.reverse_reverse] at h2
    obtain ⟨t, ht⟩ := hpre
    have hhead : (l.dropWhile isPySpace).head? = some c := by
      rw [← ht]
      cases hS : stripChars l with
      | nil => simp [hS] at hc
      | cons a t2 =>
          rw [hS] at hc
          injection hc with h2
          subst h2
          rfl
    exact head_dropWhile_false isPySpace _ c hhead
  have hB : (stripChars l).reverse.dropWhile isPySpace = (stripChars l).reverse := by
    apply dropWhile_self_of_head
    intro c hc
    have hrev : (stripChars l).reverse
        = List.dropWhile isPySpace (l.dropWhile isPySpace).reverse := by
      unfold stripChars
      rw [List.reverse_reverse]
    rw [hrev] at hc
    exact head_dropWhile_false isPySpace _ c hc
  calc stripChars (stripChars l)
      = (((stripChars l).dropWhile isPySpace).reverse.dropWhile isPySpace).reverse := rfl
    _ = ((stripChars l).reverse.dropWhile isPySpace).reverse := by rw [hA]
    _ = (stripChars l).reverse.reverse := by rw [hB]
    _ = stripChars l := List.reverse_reverse _

/-- Strip is the identity on text without Python whitespace. -/
theorem strip_no_space (l : List Char) (h : ∀ c ∈ l, isPySpace c = false) :
    stripChars l = l := by
  unfold stripChars
  rw [dropWhile_all_false isPySpace l h]
  rw [dropWhile_all_false isPySpace l.reverse (fun c hc => h c (List.mem_reverse.1 hc))]
  exact List.reverse_reverse l

/-- No character with code point 48 or above is Python whitespace. -/
theorem isPySpace_ge48 (c : Char) (h : 48 ≤ c.toNat) : isPySpace c = false := by
  unfold isPySpace
  have h1 : (c == ' ') = false :=
    beq_eq_false_iff_ne.2 (fun he => absurd (he ▸ h) (by decide))
  have h2 : (c == '\t') = false :=
    beq_eq_false_iff_ne.2 (fun he => absurd (he ▸ h) (by decide))
  have h3 : (c == '\n') = false :=
    beq_eq_false_iff_ne.2 (fun he => absurd (he ▸ h) (by decide))
  have h4 : (c == '\r') = false :=
    beq_eq_false_iff_ne.2 (fun he => absurd (he ▸ h) (by decide))
  have h5 : (c == Char.ofNat 11) = false :=
    beq_eq_false_iff_ne.2 (fun he => absurd (he ▸ h) (by decide))
  have h6 : (c == Char.ofNat 12) = false :=
    beq_eq_false_iff_ne.2 (fun he => absurd (he ▸ h) (by decide))
  rw [h1, h2, h3, h4, h5, h6]
  rfl

/-- Characters of the zero-padded decimal rendering are digits. -/
theorem natLpad_mem (c : Char) (w n : ℕ) (h : c ∈ natLpadChars w n) :
    48 ≤ c.toNat ∧ c.toNat ≤ 57 := by
  unfold natLpadChars at h
  rw [List.mem_map] at h
  obtain ⟨i, -, hi⟩ := h
  have hd : n / 10 ^ i % 10 < 10 := Nat.mod_lt _ (by norm_num)
  rw [← hi, charOfNatToNat _ (by omega)]
  omega

/-- `isoformat` output contains no Python whitespace. -/
theorem iso_no_space (dt : PyDateTime) :
    ∀ c ∈ (isoformat dt).data, isPySpace c = false := by
  intro c hc
  have hc2 : c ∈ natLpadChars 4 dt.year ++ ['-'] ++ natLpadChars 2 dt.month ++ ['-']
      ++ natLpadChars 2 dt.day ++ ['T'] ++ natLpadChars 2 dt.hour ++ [':']
      ++ natLpadChars 2 dt.minute ++ [':'] ++ natLpadChars 2 dt.second
      ++ (if dt.usec = 0 then [] else ['.'] ++ natLpadChars 6 dt.usec) := hc
  simp only [List.append_assoc, List.mem_append, List.mem_singleton] at hc2
  rcases hc2 with h|h|h|h|h|h|h|h|h|h|h|h
  · exact isPySpace_ge48 c (natLpad_mem c _ _ h).1
  · rw [h]; rfl
  · exact isPySpace_ge48 c (natLpad_mem c _ _ h).1
  · rw [h]; rfl
  · exact isPySpace_ge48 c (natLpad_mem c _ _ h).1
  · rw [h]; rfl
  · exact isPySpace_ge48 c (natLpad_mem c _ _ h).1
  · rw [h]; rfl
  · exact isPySpace_ge48 c (natLpad_mem c _ _ h).1
  · rw [h]; rfl
  · exact isPySpace_ge48 c (natLpad_mem c _ _ h).1
  · split at h
    · exact absurd h (List.not_mem_nil c)
    · simp only [List.mem_append, List.mem_singleton] at h
      rcases h with h | h
      · rw [h]; rfl
      · exact isPySpace_ge48 c (natLpad_mem c _ _ h).1

/-- `isoformat` output contains the `T` separator. -/
theorem iso_contains_T (dt : PyDateTime) :
    (isoformat dt).data.contains 'T' = true := by
  have hm : 'T' ∈ (isoformat dt).data := by
    have hm2 : 'T' ∈ natLpadChars 4 dt.year ++ ['-'] ++ natLpadChars 2 dt.month ++ ['-']
        ++ natLpadChars 2 dt.day ++ ['T'] ++ natLpadChars 2 dt.hour ++ [':']
        ++ natLpadChars 2 dt.minute ++ [':'] ++ natLpadChars 2 dt.second
        ++ (if dt.usec = 0 then [] else ['.'] ++ natLpadChars 6 dt.usec) := by
      simp [List.mem_append]
    exact hm2
  rw [List.contains_eq_any_beq, List.any_eq_true]
  exact ⟨'T', hm, rfl⟩

/-- `to_iso` passes an `isoformat` rendering through unchanged. -/
theorem to_iso_isoformat (dt : PyDateTime) :
    to_iso (J.str (isoformat dt)) = J.str (isoformat dt) := by
  rw [to_iso_str]
  rw [show (isoformat dt).data = (isoformat dt).data from rfl]
  rw [strip_no_space _ (iso_no_space dt)]
  rw [if_pos (iso_contains_T dt)]

/-- On a non-null value, `to_iso` factors through `str()`. -/
theorem to_iso_via_str (x : J) (h : ¬ x = J.null) :
    to_iso x = to_iso (J.str (pyStr x)) := by
  rw [to_iso_str (pyStr x)]
  cases x with
  | null => exact absurd rfl h
  | bool b => simp only [to_iso]
  | num q => simp only [to_iso]
  | str s => rw [to_iso_str s, pyStr_str]
  | arr l => simp only [to_iso]
  | obj l => simp only [to_iso]

/-- `to_iso` is a fixpoint on its own string outputs. -/
theorem to_iso_fix_str (s : String) :
    to_iso (to_iso (J.str s)) = to_iso (J.str s) := by
  rw [to_iso_str s]
  by_cases hT : (stripChars s.data).contains 'T' = true
  · rw [if_pos hT]
    rw [to_iso_str]
    rw [show (String.mk (stripChars s.data)).data = stripChars s.data from rfl]
    rw [strip_idem]
    rw [if_pos hT]
  · rw [if_neg hT]
    cases hf : strptime_frac (stripChars s.data) with
    | some dt => exact to_iso_isoformat dt
    | none =>
        cases hsec : strptime_sec (stripChars s.data) with
        | some dt => exact to_iso_isoformat dt
        | none =>
            show to_iso (J.str (String.mk (stripChars s.data)))
                = J.str (String.mk (stripChars s.data))
            rw [to_iso_str]
            rw [show (String.mk (stripChars s.data)).data = stripChars s.data from rfl]
            rw [strip_idem]
            rw [if_neg hT, hf, hsec]

/-- The timestamp normalizer is idempotent. -/
theorem to_iso_idem (x : J) : to_iso (to_iso x) = to_iso x := by
  by_cases h : x = J.null
  · subst h
    rfl
  · rw [to_iso_via_str x h]
    exact to_iso_fix_str (pyStr x)

/-- `a or None` leaves a null-or-truthy value unchanged. -/
theorem pyOr_fix {x : J} (h : x = J.null ∨ pyTruthy x = true) :
    pyOr x J.null = x := by
  rcases h with h | h
  · subst h
    rfl
  · unfold pyOr
    rw [if_pos h]

/-- Python `int()` truncation is the identity on integers. -/
theorem pyTrunc_intCast (z : ℤ) : pyTrunc ((z : ℤ) : ℚ) = z := by
  unfold pyTrunc
  split_ifs with h
  · exact Int.floor_intCast z
  · exact Int.ceil_intCast z

/-- `safe_int` is idempotent. -/
theorem safe_int_idem (x : J) : safe_int (safe_int x) = safe_int x := by
  cases x with
  | null => rfl
  | bool b =>
      cases b <;> norm_num [safe_int, pyTrunc]
  | num q =>
      show safe_int (J.num ((pyTrunc q : ℤ) : ℚ)) = J.num ((pyTrunc q : ℤ) : ℚ)
      simp only [safe_int]
      rw [pyTrunc_intCast]
  | str s =>
      have e : safe_int (J.str s) = (match parseIntChars s.data with
        | some z => J.num ((z : ℤ) : ℚ)
        | none => J.null) := rfl
      rw [e]
      cases hp : parseIntChars s.data with
      | none => rfl
      | some z =>
          show safe_int (J.num ((z : ℤ) : ℚ)) = J.num ((z : ℤ) : ℚ)
          simp only [safe_int]
          rw [pyTrunc_intCast]
  | arr l => rfl
  | obj l => rfl

/-- `safe_float` is idempotent. -/
theorem safe_float_idem (x : J) : safe_float (safe_float x) = safe_float x := by
  cases x with
  | null => rfl
  | bool b => cases b <;> rfl
  | num q => rfl
  | str s =>
      have e : safe_float (J.str s) = (match parseFloatChars s.data with
        | some q => J.num q
        | none => J.null) := rfl
      rw [e]
      cases hp : parseFloatChars s.data with
      | none => rfl
      | some q => rfl
  | arr l => rfl
  | obj l => rfl

/-- The level normalization (`str(level).upper()` on truthy input, null
otherwise) is a fixpoint on its own null-or-truthy outputs. -/
theorem level_fix (x : J)
    (hB : (if pyTruthy x = true then J.str (pyUpper (pyStr x)) else J.null) = J.null
        ∨ pyTruthy (if pyTruthy x = true then J.str (pyUpper (pyStr x)) else J.null)
            = true) :
    (if pyTruthy (if pyTruthy x = true then J.str (pyUpper (pyStr x)) else J.null) = true
        then J.str (pyUpper (pyStr
          (if pyTruthy x = true then J.str (pyUpper (pyStr x)) else J.null)))
        else J.null)
      = (if pyTruthy x = true then J.str (pyUpper (pyStr x)) else J.null) := by
  by_cases hx : pyTruthy x = true
  · rw [if_pos hx] at hB ⊢
    rcases hB with hB | hB
    · rw [hB]
      rfl
    · rw [if_pos hB, pyStr_str, pyUpper_idem]
  · rw [if_neg hx]
    rfl

/-- The error-field normalization (`None`/empty collapse to null) is a
fixpoint on its own outputs. -/
theorem errfield_fix (x : J) :
    (if isNoneOrEmptyStr (if isNoneOrEmptyStr x = true then J.null else x) = true
        then J.null else (if isNoneOrEmptyStr x = true then J.null else x))
      = (if isNoneOrEmptyStr x = true then J.null else x) := by
  by_cases h : isNoneOrEmptyStr x = true
  · rw [if_pos h]
    rfl
  · rw [if_neg h]
    rw [if_neg h]

/-- The dict literal of `normalize_log` already carries every schema
key, so the key-completion loop is the identity on it. -/
theorem normalize_log_fields_eq (ts sv lv ev rid sid mth pth sc dm em et hs : J) :
    normalize_log_fields ts sv lv ev rid sid mth pth sc dm em et hs
      = [("timestamp", ts), ("service", sv), ("level", lv), ("event", ev),
         ("request_id", rid), ("session_id", sid), ("method", mth), ("path", pth),
         ("status_code", sc), ("duration_ms", dm), ("error_message", em),
         ("error_type", et), ("stacktrace_hash", hs)] := by
  unfold normalize_log_fields
  apply ensureKeys_keys
  rfl

set_option maxHeartbeats 1600000 in
/-- A second `normalize_log` pass over a canonical record (no alias keys,
no `ctx`) is the identity, provided every field value is null or truthy
and the per-field coercions are fixpoints on the stored values. -/
theorem normalize_log_second_pass
    (A1 A2 A3 A4 A5 A6 A7 A8 A9 A10 A11 A12 A13 : J)
    (h1 : A1 = J.null ∨ pyTruthy A1 = true)
    (h2 : A2 = J.null ∨ pyTruthy A2 = true)
    (h3 : A3 = J.null ∨ pyTruthy A3 = true)
    (h4 : A4 = J.null ∨ pyTruthy A4 = true)
    (h5 : A5 = J.null ∨ pyTruthy A5 = true)
    (h6 : A6 = J.null ∨ pyTruthy A6 = true)
    (h7 : A7 = J.null ∨ pyTruthy A7 = true)
    (h8 : A8 = J.null ∨ pyTruthy A8 = true)
    (h9 : A9 = J.null ∨ pyTruthy A9 = true)
    (h10 : A10 = J.null ∨ pyTruthy A10 = true)
    (h11 : A11 = J.null ∨ pyTruthy A11 = true)
    (h12 : A12 = J.null ∨ pyTruthy A12 = true)
    (h13 : A13 = J.null ∨ pyTruthy A13 = true)
    (f1 : to_iso A1 = A1)
    (f3 : (if pyTruthy A3 = true then J.str (pyUpper (pyStr A3)) else J.null) = A3)
    (f9 : safe_int A9 = A9)
    (f10 : safe_float A10 = A10)
    (f11 : (if isNoneOrEmptyStr A11 = true then J.null else A11) = A11)
    (f12 : (if isNoneOrEmptyStr A12 = true then J.null else A12) = A12) :
    normalize_log
      [("timestamp", A1), ("service", A2), ("level", A3), ("event", A4),
       ("request_id", A5), ("session_id", A6), ("method", A7), ("path", A8),
       ("status_code", A9), ("duration_ms", A10), ("error_message", A11),
       ("error_type", A12), ("stacktrace_hash", A13)] J.null
      = Except.ok
      [("timestamp", A1), ("service", A2), ("level", A3), ("event", A4),
       ("request_id", A5), ("session_id", A6), ("method", A7), ("path", A8),
       ("status_code", A9), ("duration_ms", A10), ("error_message", A11),
       ("error_type", A12), ("stacktrace_hash", A13)] := by
  have e : normalize_log
      [("timestamp", A1), ("service", A2), ("level", A3), ("event", A4),
       ("request_id", A5), ("session_id", A6), ("method", A7), ("path", A8),
       ("status_code", A9), ("duration_ms", A10), ("error_message", A11),
       ("error_type", A12), ("stacktrace_hash", A13)] J.null
    = Except.map
        (fun hs => normalize_log_fields (to_iso (pyOr A1 J.null)) (pyOr A2 J.null)
          (if pyTruthy (pyOr A3 J.null) = true
            then J.str (pyUpper (pyStr (pyOr A3 J.null))) else J.null)
          (pyOr A4 J.null) (pyOr A5 J.null) (pyOr A6 J.null) (pyOr A7 J.null)
          (pyOr A8 J.null) (safe_int (pyOr A9 J.null)) (safe_float (pyOr A10 J.null))
          (if isNoneOrEmptyStr (pyOr A11 J.null) = true then J.null
            else pyOr A11 J.null)
          (if isNoneOrEmptyStr (pyOr A12 J.null) = true then J.null
            else pyOr A12 J.null) hs)
        (if pyTruthy A13 = true then Except.ok A13 else Except.ok J.null) := rfl
  rw [e, pyOr_fix h1, pyOr_fix h2, pyOr_fix h3, pyOr_fix h4, pyOr_fix h5, pyOr_fix h6,
    pyOr_fix h7, pyOr_fix h8, pyOr_fix h9, pyOr_fix h10, pyOr_fix h11, pyOr_fix h12]
  rw [f1, f3, f9, f10, f11, f12]
  rcases h13 with h13 | h13
  · rw [h13]
    show Except.ok (normalize_log_fields A1 A2 A3 A4 A5 A6 A7 A8 A9 A10 A11 A12 J.null)
        = Except.ok
      [("timestamp", A1), ("service", A2), ("level", A3), ("event", A4),
       ("request_id", A5), ("session_id", A6), ("method", A7), ("path", A8),
       ("status_code", A9), ("duration_ms", A10), ("error_message", A11),
       ("error_type", A12), ("stacktrace_hash", J.null)]
    rw [normalize_log_fields_eq]
  · rw [if_pos h13]
    show Except.ok (normalize_log_fields A1 A2 A3 A4 A5 A6 A7 A8 A9 A10 A11 A12 A13)
        = Except.ok
      [("timestamp", A1), ("service", A2), ("level", A3), ("event", A4),
       ("request_id", A5), ("session_id", A6), ("method", A7), ("path", A8),
       ("status_code", A9), ("duration_ms", A10), ("error_message", A11),
       ("error_type", A12), ("stacktrace_hash", A13)]
    rw [normalize_log_fields_eq]

/-- C10 counterexample: `normalize_log` is NOT idempotent. On
`obj = [("status", "0")]` the first pass stores `status_code = 0`; the
second pass reads `0`, which is falsy, falls through the whole alias
chain and re-coerces `None`, so `status_code` becomes null. -/
theorem C10_counterexample :
    Except.map (fun r => alGet r "status_code")
        (normalize_log [("status", J.str "0")] J.null)
      = Except.ok (J.num 0)
  ∧ Except.map (fun r => Except.map (fun r2 => alGet r2 "status_code")
        (normalize_log r J.null))
        (normalize_log [("status", J.str "0")] J.null)
      = Except.ok (Except.ok J.null) :=
  ⟨rfl, rfl⟩

/-- C10 (amended): `normalize_log` is idempotent on every output record
whose field values are each null or truthy — re-normalizing such a
record (with a null fallback service) returns it unchanged. The falsy
non-null outputs (numeric `0`, empty string, `False`) are genuine
exceptions, as the counterexample shows. -/
theorem C10_amended_idempotent (obj : List (String × J)) (f : J)
    (r : List (String × J))
    (h : normalize_log obj f = Except.ok r)
    (htn : ∀ kv ∈ r, kv.2 = J.null ∨ pyTruthy kv.2 = true) :
    normalize_log r J.null = Except.ok r := by
  simp only [normalize_log] at h
  obtain ⟨v, hv, hr⟩ := except_map_ok h
  rw [normalize_log_fields_eq] at hr
  rw [hr] at htn ⊢
  apply normalize_log_second_pass
  · exact htn _ (List.mem_cons_self _ _)
  · exact htn _ (List.mem_cons_of_mem _ (List.mem_cons_self _ _))
  · exact htn _ (List.mem_cons_of_mem _ (List.mem_cons_of_mem _
      (List.mem_cons_self _ _)))
  · exact htn _ (List.mem_cons_of_mem _ (List.mem_cons_of_mem _
      (List.mem_cons_of_mem _ (List.mem_cons_self _ _))))
  · exact htn _ (List.mem_cons_of_mem _ (List.mem_cons_of_mem _
      (List.mem_cons_of_mem _ (List.mem_cons_of_mem _ (List.mem_cons_self _ _)))))
  · exact htn _ (List.mem_cons_of_mem _ (List.mem_cons_of_mem _
      (List.mem_cons_of_mem _ (List.mem_cons_of_mem _ (List.mem_cons_of_mem _
      (List.mem_cons_self _ _))))))
  · exact htn _ (List.mem_cons_of_mem _ (List.mem_cons_of_mem _
      (List.mem_cons_of_mem _ (List.mem_cons_of_mem _ (List.mem_cons_of_mem _
      (List.mem_cons_of_mem _ (List.mem_cons_self _ _)))))))
  · exact htn _ (List.mem_cons_of_mem _ (List.mem_cons_of_mem _
      (List.mem_cons_of_mem _ (List.mem_cons_of_mem _ (List.mem_cons_of_mem _
      (List.mem_cons_of_mem _ (List.mem_cons_of_mem _ (List.mem_cons_self _ _))))))))
  · exact htn _ (List.mem_cons_of_mem _ (List.mem_cons_of_mem _
      (List.mem_cons_of_mem _ (List.mem_cons_of_mem _ (List.mem_cons_of_mem _
      (List.mem_cons_of_mem _ (List.mem_cons_of_mem _ (List.mem_cons_of_mem _
      (List.mem_cons_self _ _)))))))))
  · exact htn _ (List.mem_cons_of_mem _ (List.mem_cons_of_mem _
      (List.mem_cons_of_mem _ (List.mem_cons_of_mem _ (List.mem_cons_of_mem _
      (List.mem_cons_of_mem _ (List.mem_cons_of_mem _ (List.mem_cons_of_mem _
      (List.mem_cons_of_mem _ (List.mem_cons_self _ _))))))))))
  · exact htn _ (List.mem_cons_of_mem _ (List.mem_cons_of_mem _
      (List.mem_cons_of_mem _ (List.mem_cons_of_mem _ (List.mem_cons_of_mem _
      (List.mem_cons_of_mem _ (List.mem_cons_of_mem _ (List.mem_cons_of_mem _
      (List.mem_cons_of_mem _ (List.mem_cons_of_mem _
      (List.mem_cons_self _ _)))))))))))
  · exact htn _ (List.mem_cons_of_mem _ (List.mem_cons_of_mem _
      (List.mem_cons_of_mem _ (List.mem_cons_of_mem _ (List.mem_cons_of_mem _
      (List.mem_cons_of_mem _ (List.mem_cons_of_mem _ (List.mem_cons_of_mem _
      (List.mem_cons_of_mem _ (List.mem_cons_of_mem _ (List.mem_cons_of_mem _
      (List.mem_cons_self _ _))))))))))))
  · exact htn _ (List.mem_cons_of_mem _ (List.mem_cons_of_mem _
      (List.mem_cons_of_mem _ (List.mem_cons_of_mem _ (List.mem_cons_of_mem _
      (List.mem_cons_of_mem _ (List.mem_cons_of_mem _ (List.mem_cons_of_mem _
      (List.mem_cons_of_mem _ (List.mem_cons_of_mem _ (List.mem_cons_of_mem _
      (List.mem_cons_of_mem _ (List.mem_cons_self _ _)))))))))))))
  · exact to_iso_idem _
  · exact level_fix _ (htn _ (List.mem_cons_of_mem _ (List.mem_cons_of_mem _
      (List.mem_cons_self _ _))))
  · exact safe_int_idem _
  · exact safe_float_idem _
  · exact errfield_fix _
  · exact errfield_fix _

/-- C10 witness: the all-null canonical record re-normalizes to
itself. -/
theorem C10_amended_idempotent_witness :
    normalize_log
      [(("timestamp" : String), J.null), ("service", J.null), ("level", J.null),
       ("event", J.null), ("request_id", J.null), ("session_id", J.null),
       ("method", J.null), ("path", J.null), ("status_code", J.null),
       ("duration_ms", J.null), ("error_message", J.null), ("error_type", J.null),
       ("stacktrace_hash", J.null)] J.null
      = Except.ok
      [(("timestamp" : String), J.null), ("service", J.null), ("level", J.null),
       ("event", J.null), ("request_id", J.null), ("session_id", J.null),
       ("method", J.null), ("path", J.null), ("status_code", J.null),
       ("duration_ms", J.null), ("error_message", J.null), ("error_type", J.null),
       ("stacktrace_hash", J.null)] :=
  C10_amended_idempotent [] J.null _ rfl
    (by
      intro kv hkv
      left
      simp only [List.mem_cons, List.not_mem_nil, or_false] at hkv
      rcases hkv with rfl|rfl|rfl|rfl|rfl|rfl|rfl|rfl|rfl|rfl|rfl|rfl|rfl <;> rfl)
